import Mathlib

/-! The userfaultfd minor-fault demonstration: embedding of `main.cc` and `logging.h`.

The program has two threads.  The initiator (`main`) creates a memfd, maps it
twice (`region0`, `region1`), touches every page of `region0`, registers
`region1` with userfaultfd in minor mode, starts `FaultHandlerThread` and then
reads the first byte of every page of `region1`.  The resolver
(`FaultHandlerThread`) serves one fault event per loop iteration.

Both threads are embedded as state-passing programs over an abstract platform
state `σ`.  Every call that leaves the program text (system calls, memory
accesses to the mappings) goes through a `Platform σ` record, and is recorded,
together with what it returned, in a trace of `Effect`s.  Diagnostic output
(`printf`, the text written by a failed check) does not influence control flow
or memory and is not recorded.

Machine integers are natural numbers or integers with explicit reduction
modulo `2 ^ 64`; bytes are natural numbers below `256`.
-/

namespace UffdMinor

/-! ## Machine arithmetic -/

/-- Conversion of a signed value to `uint64_t` / `size_t` (wrap-around). -/
def toU64 (n : Int) : Nat := (n % (2 ^ 64 : Int)).toNat

/-- Conversion of a 64-bit unsigned value to `char` (keeps the low 8 bits); the
result is the raw byte. -/
def toChar (n : Nat) : Nat := n % 256

/-- Value of a `char` object holding raw byte `b` after the usual arithmetic
conversions to `unsigned long`: `char` is signed on x86-64, it is promoted to
`int` (sign extension) and then converted to 64 bits unsigned. -/
def charToU64 (b : Nat) : Nat := toU64 (if b < 128 then (b : Int) else (b : Int) - 256)

/-- Pointer plus byte offset in the flat 64-bit address space. -/
def ptrAdd (p offset : Nat) : Nat := (p + offset) % 2 ^ 64

/-- The expression `msg.arg.pagefault.address - reinterpret_cast<uint64_t>(region1)`
in `uint64_t` arithmetic. -/
def faultOffset (region1 address : Nat) : Nat := toU64 ((address : Int) - (region1 : Int))

/-- The expression `'c' + (offset / kPageSize)`, evaluated in `uint64_t` and
assigned to a `char`. -/
def pageChar (kPageSize offset : Nat) : Nat := toChar ((99 + offset / kPageSize) % 2 ^ 64)

/-- The expression `i * kPageSize` in `size_t` arithmetic. -/
def pageOffset (kPageSize i : Nat) : Nat := (i * kPageSize) % 2 ^ 64

/-! ## Header types and constants

`userfaultfd.h` is not among the sources; the constants it defines are taken as
a parameter. -/

/-- The part of `struct uffd_msg` the program looks at. -/
structure UffdMsg where
  event : Nat
  flags : Nat
  address : Nat
deriving DecidableEq, Repr

/-- Constants of `userfaultfd.h` (and the two `fcntl.h` flags) used by the
program. -/
structure UffdHeader where
  sizeof_uffd_msg : Nat
  UFFD_EVENT_PAGEFAULT : Nat
  UFFD_API : Nat
  UFFD_FEATURE_MINOR_SHMEM : Nat
  UFFDIO_REGISTER_MODE_MINOR : Nat
  UFFDIO_CONTINUE_NR : Nat
  UFFD_USER_MODE_ONLY : Nat
  O_CLOEXEC : Nat
  O_NONBLOCK : Nat
deriving DecidableEq, Repr

/-- The values of the Linux UAPI header. -/
def linuxHeader : UffdHeader where
  sizeof_uffd_msg := 32
  UFFD_EVENT_PAGEFAULT := 0x12
  UFFD_API := 0xAA
  UFFD_FEATURE_MINOR_SHMEM := 1 <<< 10
  UFFDIO_REGISTER_MODE_MINOR := 1 <<< 2
  UFFDIO_CONTINUE_NR := 7
  UFFD_USER_MODE_ONLY := 1
  O_CLOEXEC := 0x80000
  O_NONBLOCK := 0x800

/-- The struct `Init`: what the initiator publishes to the resolver. -/
structure Init where
  uffd : Int
  region0 : Nat
  region1 : Nat
deriving DecidableEq, Repr

/-- The constant `MAP_FAILED`, that is `(void*) -1`. -/
def MAP_FAILED : Nat := 2 ^ 64 - 1

/-- The null pointer. -/
def nullptr : Nat := 0

/-! ## Effects, platform and the program monad -/

/-- One completed interaction of the program with the platform, with its
arguments and its result. -/
inductive Effect where
  | memfd_create (ret : Int)
  | ftruncate (fd : Int) (length : Nat) (ret : Int)
  | mmap (length : Nat) (fd : Int) (ret : Nat)
  | munmap (addr length : Nat) (ret : Int)
  | close (fd : Int) (ret : Int)
  | store (addr byte : Nat)
  | load (addr byte : Nat)
  | userfaultfd (flags : Nat) (ret : Int)
  | uffdioApi (fd : Int) (api features : Nat) (ret : Int) (apiOut featuresOut : Nat)
  | uffdioRegister (fd : Int) (start len mode : Nat) (ret : Int) (ioctls : Nat)
  | uffdioContinue (fd : Int) (start len : Nat) (ret : Int)
  | pthread_create (init : Init) (ret : Int)
  | poll (fd : Int) (ret : Int)
  | read (fd : Int) (count : Nat) (ret : Int) (msg : UffdMsg)
deriving DecidableEq, Repr

/-- A completed one-byte store. -/
def Effect.isStore : Effect → Bool
  | .store _ _ => true
  | _ => false

/-- A completion directive (`UFFDIO_CONTINUE`), accepted or not. -/
def Effect.isContinue : Effect → Bool
  | .uffdioContinue _ _ _ _ => true
  | _ => false

/-- A registration request (`UFFDIO_REGISTER`), accepted or not. -/
def Effect.isRegister : Effect → Bool
  | .uffdioRegister _ _ _ _ _ _ => true
  | _ => false

/-- The creation of the resolver thread. -/
def Effect.isThreadCreate : Effect → Bool
  | .pthread_create _ _ => true
  | _ => false

/-- A completed one-byte load. -/
def Effect.isLoad : Effect → Bool
  | .load _ _ => true
  | _ => false

/-- What the platform answers.  `σ` is the state of everything outside the
program text.  `store`, `load` and `poll` may never complete (`none` in the
first component): the thread is killed by a signal or stays suspended. -/
structure Platform (σ : Type) where
  memfd_create : σ → Int × σ
  ftruncate : Int → Nat → σ → Int × σ
  mmap : Nat → Int → σ → Nat × σ
  munmap : Nat → Nat → σ → Int × σ
  close : Int → σ → Int × σ
  store : Nat → Nat → σ → Option Unit × σ
  load : Nat → σ → Option Nat × σ
  userfaultfd : Nat → σ → Int × σ
  uffdioApi : Int → Nat → Nat → σ → (Int × Nat × Nat) × σ
  uffdioRegister : Int → Nat → Nat → Nat → σ → (Int × Nat) × σ
  uffdioContinue : Int → Nat → Nat → σ → Int × σ
  pthread_create : Init → σ → Int × σ
  poll : Int → σ → Option Int × σ
  read : Int → Nat → σ → (Int × UffdMsg) × σ

/-- How a thread stops without returning. -/
inductive Halt where
  | exited (status : Nat)
  | blocked
deriving DecidableEq, Repr

/-- Result of running a piece of program: the effects it produced, and either
a value with the state reached, or the way it stopped. -/
inductive Step (σ α : Type) where
  | ok (tr : List Effect) (a : α) (s : σ)
  | halt (tr : List Effect) (h : Halt) (s : σ)

/-- Effects produced. -/
def Step.trace {σ α : Type} : Step σ α → List Effect
  | .ok tr _ _ => tr
  | .halt tr _ _ => tr

/-- The way the run stopped, if it did not return. -/
def Step.halted {σ α : Type} : Step σ α → Option Halt
  | .ok _ _ _ => none
  | .halt _ h _ => some h

/-- The value returned, if the run returned. -/
def Step.value {σ α : Type} : Step σ α → Option α
  | .ok _ a _ => some a
  | .halt _ _ _ => none

/-- The platform state reached. -/
def Step.state {σ α : Type} : Step σ α → σ
  | .ok _ _ s => s
  | .halt _ _ s => s

/-- Put earlier effects in front. -/
def Step.after {σ α : Type} (tr0 : List Effect) : Step σ α → Step σ α
  | .ok tr a s => .ok (tr0 ++ tr) a s
  | .halt tr h s => .halt (tr0 ++ tr) h s

/-- A program fragment. -/
def Proc (σ α : Type) : Type := σ → Step σ α

/-- Return a value. -/
def Proc.pure {σ α : Type} (a : α) : Proc σ α := fun s => .ok [] a s

/-- Sequencing: the second fragment runs only if the first returned. -/
def Proc.bind {σ α β : Type} (x : Proc σ α) (f : α → Proc σ β) : Proc σ β := fun s =>
  match x s with
  | .ok tr a s1 => (f a s1).after tr
  | .halt tr h s1 => .halt tr h s1

instance {σ : Type} : Monad (Proc σ) where
  pure := Proc.pure
  bind := Proc.bind

/-- A platform call that always returns. -/
def call {σ α : Type} (f : σ → α × σ) (e : α → Effect) : Proc σ α := fun s =>
  .ok [e (f s).1] (f s).1 (f s).2

/-- A platform call or memory access that may never complete. -/
def callBlocking {σ α : Type} (f : σ → Option α × σ) (e : α → Effect) : Proc σ α := fun s =>
  match (f s).1 with
  | some a => .ok [e a] a (f s).2
  | none => .halt [] .blocked (f s).2

/-! ## `logging.h` -/

/-- The macro `__LCHECK(op, invop, expr1, expr2)`, given whether `expr1 op expr2` holds:
when it does not, the macro prints a diagnostic and calls `exit(1)`. -/
def __LCHECK {σ : Type} (holds : Bool) : Proc σ Unit := fun s =>
  if holds then .ok [] () s else .halt [] (.exited 1) s

/-- The macro `CHECK_EQ(val1, val2)`. -/
def CHECK_EQ {σ α : Type} [DecidableEq α] (val1 val2 : α) : Proc σ Unit :=
  __LCHECK (decide (val1 = val2))

/-- The macro `CHECK_NE(val1, val2)`. -/
def CHECK_NE {σ α : Type} [DecidableEq α] (val1 val2 : α) : Proc σ Unit :=
  __LCHECK (decide (val1 ≠ val2))

/-- The macro `CHECK_GE(val1, val2)`, used on signed integers. -/
def CHECK_GE {σ : Type} (val1 val2 : Int) : Proc σ Unit :=
  __LCHECK (decide (val1 ≥ val2))

/-! ## `main.cc`: the resolver -/

/-- One pass through the body of the `while (true)` loop of
`FaultHandlerThread`. -/
def FaultHandlerIteration {σ : Type} (P : Platform σ) (hdr : UffdHeader) (kPageSize : Nat)
    (uffd : Int) (region0 region1 : Nat) : Proc σ Unit := do
  let num_ready ← callBlocking (P.poll uffd) (Effect.poll uffd)
  CHECK_NE num_ready (-1)
  let r ← call (P.read uffd hdr.sizeof_uffd_msg) (fun r => Effect.read uffd hdr.sizeof_uffd_msg r.1 r.2)
  let num_read := r.1
  let msg := r.2
  CHECK_EQ (toU64 num_read) hdr.sizeof_uffd_msg
  CHECK_EQ msg.event hdr.UFFD_EVENT_PAGEFAULT
  let offset := faultOffset region1 msg.address
  CHECK_EQ (offset % kPageSize) 0
  let page := ptrAdd region0 offset
  let byte := pageChar kPageSize offset
  callBlocking (P.store page byte) (fun _ => Effect.store page byte)
  let ret ← call (P.uffdioContinue uffd msg.address kPageSize)
    (Effect.uffdioContinue uffd msg.address kPageSize)
  CHECK_NE ret (-1)

/-- The `while (true)` loop of `FaultHandlerThread`, cut off after `fuel`
passes; the loop itself has no exit. -/
def FaultHandlerLoop {σ : Type} (P : Platform σ) (hdr : UffdHeader) (kPageSize : Nat)
    (uffd : Int) (region0 region1 : Nat) : Nat → Proc σ Unit
  | 0 => pure ()
  | fuel + 1 => do
    FaultHandlerIteration P hdr kPageSize uffd region0 region1
    FaultHandlerLoop P hdr kPageSize uffd region0 region1 fuel

/-- The function `FaultHandlerThread`: the checks on the published `init`, then the loop. -/
def FaultHandlerThread {σ : Type} (P : Platform σ) (hdr : UffdHeader) (kPageSize : Nat)
    (init : Init) (fuel : Nat) : Proc σ Unit := do
  let uffd := init.uffd
  CHECK_NE uffd (-1)
  let region0 := init.region0
  CHECK_NE region0 nullptr
  let region1 := init.region1
  CHECK_NE region1 nullptr
  CHECK_NE region0 region1
  FaultHandlerLoop P hdr kPageSize uffd region0 region1 fuel

/-! ## `main.cc`: the backing store -/

/-- The data members of `class Shmem`. -/
structure Shmem where
  size_ : Nat
  memfd_ : Int
  regions_ : List Nat
deriving DecidableEq, Repr

/-- The constructor `Shmem::Shmem(size_t size)`: the member initialisers run
first (so `memfd_create` is called before any check), then the body. -/
def Shmem.ctor {σ : Type} (P : Platform σ) (kPageSize : Nat) (size : Nat) : Proc σ Shmem := do
  let memfd ← call P.memfd_create Effect.memfd_create
  let self : Shmem := { size_ := size, memfd_ := memfd, regions_ := [] }
  CHECK_EQ (self.size_ % kPageSize) 0
  CHECK_GE self.memfd_ 0
  let ret ← call (P.ftruncate self.memfd_ self.size_) (Effect.ftruncate self.memfd_ self.size_)
  CHECK_EQ ret 0
  return self

/-- The member function `Shmem::size()`. -/
def Shmem.size (self : Shmem) : Nat := self.size_

/-- The member function `Shmem::GetNewRegion()`; returns the region and the updated object. -/
def Shmem.GetNewRegion {σ : Type} (P : Platform σ) (self : Shmem) : Proc σ (Nat × Shmem) := do
  let region ← call (P.mmap self.size_ self.memfd_) (Effect.mmap self.size_ self.memfd_)
  CHECK_NE region MAP_FAILED
  return (region, { self with regions_ := self.regions_ ++ [region] })

/-- The `for (void* region : regions_)` loop of the destructor. -/
def Shmem.unmapRegions {σ : Type} (P : Platform σ) (size : Nat) : List Nat → Proc σ Unit
  | [] => pure ()
  | region :: rest => do
    let ret ← call (P.munmap region size) (Effect.munmap region size)
    CHECK_EQ ret 0
    Shmem.unmapRegions P size rest

/-- The destructor `Shmem::~Shmem()`. -/
def Shmem.dtor {σ : Type} (P : Platform σ) (self : Shmem) : Proc σ Unit := do
  Shmem.unmapRegions P self.size_ self.regions_
  let ret ← call (P.close self.memfd_) (Effect.close self.memfd_)
  CHECK_EQ ret 0

/-! ## `main.cc`: the initiator -/

/-- The loop `for (size_t i = 0; i < kNumPages; i++)` that stores `'a'` into
byte 0 of every page of `region0`; `touchPages i n` runs the passes
`i, i + 1, ..., i + n - 1`. -/
def touchPages {σ : Type} (P : Platform σ) (kPageSize region0 : Nat) : Nat → Nat → Proc σ Unit
  | _, 0 => pure ()
  | i, n + 1 => do
    let ch := ptrAdd region0 (pageOffset kPageSize i)
    callBlocking (P.store ch 97) (fun _ => Effect.store ch 97)
    touchPages P kPageSize region0 (i + 1) n

/-- The loop `for (size_t page_idx = 0; page_idx < kNumPages; page_idx++)` that
reads byte 0 of every page of `region1` and checks it; `readPages page_idx n`
runs the passes `page_idx, ..., page_idx + n - 1`. -/
def readPages {σ : Type} (P : Platform σ) (kPageSize region1 : Nat) : Nat → Nat → Proc σ Unit
  | _, 0 => pure ()
  | page_idx, n + 1 => do
    let page := ptrAdd region1 (pageOffset kPageSize page_idx)
    let val ← callBlocking (P.load page) (Effect.load page)
    CHECK_EQ (charToU64 val) ((99 + page_idx) % 2 ^ 64)
    readPages P kPageSize region1 (page_idx + 1) n

/-- The function `main`, with the page count `kNumPages` (10 in the source) as a
parameter.  The destructor of `shmem` runs when `main` returns. -/
def main {σ : Type} (P : Platform σ) (hdr : UffdHeader) (kPageSize kNumPages : Nat) :
    Proc σ Int := do
  let kShmemSize := (kPageSize * kNumPages) % 2 ^ 64
  let shmem ← Shmem.ctor P kPageSize kShmemSize
  let r0 ← shmem.GetNewRegion P
  let region0 := r0.1
  let shmem := r0.2
  let r1 ← shmem.GetNewRegion P
  let region1 := r1.1
  let shmem := r1.2
  CHECK_NE region0 region1
  touchPages P kPageSize region0 0 kNumPages
  let flags := hdr.O_CLOEXEC ||| hdr.O_NONBLOCK ||| hdr.UFFD_USER_MODE_ONLY
  let uffd ← call (P.userfaultfd flags) (Effect.userfaultfd flags)
  CHECK_GE uffd 0
  let init : Init := { uffd := uffd, region0 := region0, region1 := region1 }
  let a ← call (P.uffdioApi uffd hdr.UFFD_API hdr.UFFD_FEATURE_MINOR_SHMEM)
    (fun a => Effect.uffdioApi uffd hdr.UFFD_API hdr.UFFD_FEATURE_MINOR_SHMEM a.1 a.2.1 a.2.2)
  CHECK_NE a.1 (-1)
  CHECK_EQ a.2.1 hdr.UFFD_API
  CHECK_NE (a.2.2 &&& hdr.UFFD_FEATURE_MINOR_SHMEM) 0
  let g ← call (P.uffdioRegister uffd region1 kShmemSize hdr.UFFDIO_REGISTER_MODE_MINOR)
    (fun g => Effect.uffdioRegister uffd region1 kShmemSize hdr.UFFDIO_REGISTER_MODE_MINOR g.1 g.2)
  CHECK_NE g.1 (-1)
  CHECK_NE (g.2 &&& ((1 <<< hdr.UFFDIO_CONTINUE_NR) % 2 ^ 64)) 0
  let ret ← call (P.pthread_create init) (Effect.pthread_create init)
  CHECK_EQ ret 0
  readPages P kPageSize region1 0 kNumPages
  shmem.dtor P
  return 0


/-! ## The platform: a machine with minor-fault support

The environment the program runs in: one memfd file, its mappings, one
userfaultfd and the resolver thread.  This is the behaviour §4.3 of the
specification describes for the fault-interception facility, together with
what the comment in `main` says about pages that were never touched.  It is
used to run the two threads together; the statements about a single thread
hold for every `Platform`. -/

/-- What is fixed about the machine: header constants, page size, the
descriptors and addresses the kernel hands out, and what it reports. -/
structure Machine where
  hdr : UffdHeader
  kPageSize : Nat
  memfd : Int
  uffd : Int
  region0 : Nat
  region1 : Nat
  features : Nat
  ioctls : Nat

/-- State of the machine. -/
structure World where
  /-- Bytes of the memfd file, by file offset. -/
  file : Nat → Nat
  /-- Size of the memfd file. -/
  fileSize : Nat
  /-- Which pages of the file exist in the page cache, by page index. -/
  cached : Nat → Bool
  /-- Live shared mappings of the file: base address and length. -/
  maps : List (Nat × Nat)
  /-- The range registered with the userfaultfd in minor mode. -/
  registered : Option (Nat × Nat)
  /-- Which virtual pages have a page table entry, by page address. -/
  installed : Nat → Bool
  /-- Fault events not yet read from the userfaultfd. -/
  queue : List UffdMsg
  /-- The resolver thread, once it runs its loop. -/
  resolver : Option Init
  /-- Set when the resolver thread has called `exit`. -/
  exitStatus : Option Nat

/-- The function `f` changed at `k` to `v`. -/
def setAt {β : Type} (f : Nat → β) (k : Nat) (v : β) : Nat → β :=
  fun x => if x = k then v else f x

/-- The machine before the program starts. -/
def World.boot : World where
  file := fun _ => 0
  fileSize := 0
  cached := fun _ => false
  maps := []
  registered := none
  installed := fun _ => false
  queue := []
  resolver := none
  exitStatus := none

/-- The mapping an address belongs to. -/
def World.lookup (w : World) (a : Nat) : Option (Nat × Nat) :=
  w.maps.find? (fun r => decide (r.1 ≤ a ∧ a < r.1 + r.2))

/-- Whether an address lies in the registered range. -/
def World.inRegistered (w : World) (a : Nat) : Bool :=
  match w.registered with
  | some r => decide (r.1 ≤ a ∧ a < r.1 + r.2)
  | none => false

/-- The byte a virtual address refers to, if the address is mapped: both
mappings show the bytes of the one file. -/
def World.peek (w : World) (a : Nat) : Option Nat :=
  (w.lookup a).map (fun r => w.file (a - r.1))

/-- What happens when a thread touches an address. -/
inductive Access where
  /-- The access goes ahead at this file offset. -/
  | ready (offset : Nat) (w : World)
  /-- The access is intercepted: the thread is suspended and this event is
  delivered on the userfaultfd. -/
  | userfault (msg : UffdMsg)
  /-- The address is not mapped. -/
  | segv

namespace Kernel

/-- Page-fault handling for an access to address `a`.  A page without a page
table entry is intercepted when its address is registered and the page is in
the page cache (a minor fault); otherwise the kernel resolves the fault itself,
allocating the page if needed. -/
def touch (m : Machine) (w : World) (a : Nat) : Access :=
  match w.lookup a with
  | none => .segv
  | some r =>
    let offset := a - r.1
    let pageAddr := a - a % m.kPageSize
    if w.installed pageAddr then .ready offset w
    else if w.inRegistered a && w.cached (offset / m.kPageSize) then
      .userfault { event := m.hdr.UFFD_EVENT_PAGEFAULT, flags := 4, address := pageAddr }
    else
      .ready offset { w with
        cached := setAt w.cached (offset / m.kPageSize) true
        installed := setAt w.installed pageAddr true }

/-- The call `memfd_create`: hands out the descriptor of the memfd. -/
def memfd_create (m : Machine) (w : World) : Int × World := (m.memfd, w)

/-- The call `ftruncate` on the memfd. -/
def ftruncate (m : Machine) (fd : Int) (length : Nat) (w : World) : Int × World :=
  if fd = m.memfd then (0, { w with fileSize := length }) else (-1, w)

/-- The call `mmap` of the whole memfd, shared, at an address of the kernel's choice. -/
def mmap (m : Machine) (length : Nat) (fd : Int) (w : World) : Nat × World :=
  if fd = m.memfd ∧ 0 < length ∧ length = w.fileSize then
    match w.maps with
    | [] => (m.region0, { w with maps := [(m.region0, length)] })
    | [r] => (m.region1, { w with maps := [r, (m.region1, length)] })
    | _ => (MAP_FAILED, w)
  else (MAP_FAILED, w)

/-- The call `munmap` of a whole mapping. -/
def munmap (addr length : Nat) (w : World) : Int × World :=
  if (addr, length) ∈ w.maps then (0, { w with maps := w.maps.erase (addr, length) })
  else (-1, w)

/-- The call `close` of one of the two descriptors. -/
def close (m : Machine) (fd : Int) (w : World) : Int × World :=
  if fd = m.memfd ∨ fd = m.uffd then (0, w) else (-1, w)

/-- The `userfaultfd` system call. -/
def userfaultfd (m : Machine) (_flags : Nat) (w : World) : Int × World := (m.uffd, w)

/-- The call `ioctl(UFFDIO_API)`: reports the API version and the supported features. -/
def uffdioApi (m : Machine) (fd : Int) (api _features : Nat) (w : World) :
    (Int × Nat × Nat) × World :=
  if fd = m.uffd ∧ api = m.hdr.UFFD_API then ((0, m.hdr.UFFD_API, m.features), w)
  else ((-1, 0, 0), w)

/-- The call `ioctl(UFFDIO_REGISTER)`: a page-aligned range inside one mapping can be
registered in minor mode. -/
def uffdioRegister (m : Machine) (fd : Int) (start len mode : Nat) (w : World) :
    (Int × Nat) × World :=
  if fd = m.uffd ∧ mode = m.hdr.UFFDIO_REGISTER_MODE_MINOR ∧ 0 < len ∧
      start % m.kPageSize = 0 ∧ len % m.kPageSize = 0 ∧
      (w.maps.any fun r => decide (r.1 ≤ start ∧ start + len ≤ r.1 + r.2)) = true then
    ((0, m.ioctls), { w with registered := some (start, len) })
  else ((-1, 0), w)

/-- The call `ioctl(UFFDIO_CONTINUE)` for one page: accepted when the page lies in the
registered range, is page-aligned, exists in the page cache and has no page
table entry yet; it installs the entry.  Everything else is rejected. -/
def uffdioContinue (m : Machine) (fd : Int) (start len : Nat) (w : World) : Int × World :=
  match w.lookup start with
  | none => (-1, w)
  | some r =>
    if fd = m.uffd ∧ w.inRegistered start = true ∧ start % m.kPageSize = 0 ∧
        len = m.kPageSize ∧ w.cached ((start - r.1) / m.kPageSize) = true ∧
        w.installed start = false then
      (0, { w with installed := setAt w.installed start true })
    else (-1, w)

/-- The call `poll` on the userfaultfd without timeout: returns once an event is
queued. -/
def poll (w : World) : Option Int × World :=
  match w.queue with
  | [] => (none, w)
  | _ :: _ => (some 1, w)

/-- The call `read` on the non-blocking userfaultfd: one whole message, or `-1`. -/
def read (m : Machine) (fd : Int) (count : Nat) (w : World) : (Int × UffdMsg) × World :=
  match w.queue with
  | msg :: rest =>
    if fd = m.uffd ∧ m.hdr.sizeof_uffd_msg ≤ count then
      ((m.hdr.sizeof_uffd_msg, msg), { w with queue := rest })
    else ((-1, ⟨0, 0, 0⟩), w)
  | [] => ((-1, ⟨0, 0, 0⟩), w)

/-- A store by the resolver thread.  If it is intercepted nobody is left to
resolve it, so it never completes. -/
def storeAlone (m : Machine) (a byte : Nat) (w : World) : Option Unit × World :=
  match touch m w a with
  | .ready offset w1 => (some (), { w1 with file := setAt w1.file offset byte })
  | .userfault msg => (none, { w with queue := w.queue ++ [msg] })
  | .segv => (none, w)

/-- A load by the resolver thread. -/
def loadAlone (m : Machine) (a : Nat) (w : World) : Option Nat × World :=
  match touch m w a with
  | .ready offset w1 => (some (w1.file offset), w1)
  | .userfault msg => (none, { w with queue := w.queue ++ [msg] })
  | .segv => (none, w)

end Kernel

/-- The machine as the resolver thread sees it. -/
def resolverSide (m : Machine) : Platform World where
  memfd_create := Kernel.memfd_create m
  ftruncate := Kernel.ftruncate m
  mmap := Kernel.mmap m
  munmap := Kernel.munmap
  close := Kernel.close m
  store := Kernel.storeAlone m
  load := Kernel.loadAlone m
  userfaultfd := Kernel.userfaultfd m
  uffdioApi := Kernel.uffdioApi m
  uffdioRegister := Kernel.uffdioRegister m
  uffdioContinue := Kernel.uffdioContinue m
  pthread_create := fun _ w => (-1, w)
  poll := fun _ => Kernel.poll
  read := Kernel.read m

/-- The resolver thread serves one event: the event is queued and the thread,
waiting in `poll`, runs one pass of its loop.  The result says whether the pass
completed; if the thread called `exit`, the status is recorded. -/
def serveFault (m : Machine) (msg : UffdMsg) (w : World) : Bool × World :=
  match w.resolver with
  | none => (false, { w with queue := w.queue ++ [msg] })
  | some init =>
    match FaultHandlerIteration (resolverSide m) m.hdr m.kPageSize init.uffd init.region0
        init.region1 { w with queue := w.queue ++ [msg] } with
    | .ok _ _ w1 => (true, w1)
    | .halt _ (.exited c) w1 => (false, { w1 with exitStatus := some c })
    | .halt _ .blocked w1 => (false, w1)

/-- An access by the initiator: if it is intercepted the initiator is suspended
while the resolver serves the event, and the access is retried once the
resolver has completed its pass.  Nothing completes once the process has
exited. -/
def servedTouch (m : Machine) (w : World) (a : Nat) : Option (Nat × World) × World :=
  if w.exitStatus.isSome then (none, w)
  else
    match Kernel.touch m w a with
    | .ready offset w1 => (some (offset, w1), w1)
    | .segv => (none, w)
    | .userfault msg =>
      match serveFault m msg w with
      | (false, w1) => (none, w1)
      | (true, w1) =>
        match Kernel.touch m w1 a with
        | .ready offset w2 => (some (offset, w2), w2)
        | _ => (none, w1)

/-- A store by the initiator. -/
def Kernel.store (m : Machine) (a byte : Nat) (w : World) : Option Unit × World :=
  match servedTouch m w a with
  | (some r, _) => (some (), { r.2 with file := setAt r.2.file r.1 byte })
  | (none, w1) => (none, w1)

/-- A load by the initiator. -/
def Kernel.load (m : Machine) (a : Nat) (w : World) : Option Nat × World :=
  match servedTouch m w a with
  | (some r, _) => (some (r.2.file r.1), r.2)
  | (none, w1) => (none, w1)

/-- The call `pthread_create(&thr, NULL, FaultHandlerThread, nullptr)`: the new thread
runs the checks at the top of `FaultHandlerThread` and then waits in its
loop. -/
def Kernel.pthread_create (m : Machine) (init : Init) (w : World) : Int × World :=
  match FaultHandlerThread (resolverSide m) m.hdr m.kPageSize init 0 w with
  | .ok _ _ w1 => (0, { w1 with resolver := some init })
  | .halt _ (.exited c) w1 => (0, { w1 with exitStatus := some c })
  | .halt _ .blocked w1 => (0, w1)

/-- The machine as the initiator sees it: the kernel together with the resolver
thread. -/
def mainSide (m : Machine) : Platform World where
  memfd_create := Kernel.memfd_create m
  ftruncate := Kernel.ftruncate m
  mmap := Kernel.mmap m
  munmap := Kernel.munmap
  close := Kernel.close m
  store := Kernel.store m
  load := Kernel.load m
  userfaultfd := Kernel.userfaultfd m
  uffdioApi := Kernel.uffdioApi m
  uffdioRegister := Kernel.uffdioRegister m
  uffdioContinue := Kernel.uffdioContinue m
  pthread_create := Kernel.pthread_create m
  poll := fun _ => Kernel.poll
  read := Kernel.read m

/-- How the process ends: with an exit status, or never. -/
inductive ProcessEnd where
  | status (code : Int)
  | never
deriving DecidableEq, Repr

/-- The whole program on machine `m` with `kNumPages` pages: `main` run
against the kernel and the resolver thread.  An `exit` in the resolver ends the
process; otherwise the process ends when `main` returns or calls `exit`. -/
def runProgram (m : Machine) (kNumPages : Nat) : Step World Int :=
  main (mainSide m) m.hdr m.kPageSize kNumPages World.boot

/-- The exit status of the process. -/
def processEnd (r : Step World Int) : ProcessEnd :=
  match r.state.exitStatus with
  | some c => .status c
  | none =>
    match r with
    | .ok _ c _ => .status c
    | .halt _ (.exited c) _ => .status c
    | .halt _ .blocked _ => .never

/-- The machine behaves as the program needs for a store of `N` pages: the
page size is positive, the store and both mappings fit in the 64-bit address
space, the mappings are page-aligned, not null and do not overlap, the
descriptors are valid, and the kernel reports minor-fault support and the
`UFFDIO_CONTINUE` ioctl. -/
structure Machine.Sound (m : Machine) (N : Nat) : Prop where
  page_pos : 0 < m.kPageSize
  msg_size : m.hdr.sizeof_uffd_msg < 2 ^ 64
  memfd_ok : 0 ≤ m.memfd
  uffd_ok : 0 ≤ m.uffd
  minor_supported : m.features &&& m.hdr.UFFD_FEATURE_MINOR_SHMEM ≠ 0
  continue_supported : m.ioctls &&& ((1 <<< m.hdr.UFFDIO_CONTINUE_NR) % 2 ^ 64) ≠ 0
  region0_aligned : m.region0 % m.kPageSize = 0
  region1_aligned : m.region1 % m.kPageSize = 0
  region0_nonnull : m.region0 ≠ 0
  region1_nonnull : m.region1 ≠ 0
  region0_fits : m.region0 + m.kPageSize * N < 2 ^ 64
  region1_fits : m.region1 + m.kPageSize * N < 2 ^ 64
  disjoint : m.region0 + m.kPageSize * N ≤ m.region1 ∨ m.region1 + m.kPageSize * N ≤ m.region0

/-- The state of the machine while `main` stores `'a'` into the pages of
`region0`, before it touches page `i`: both mappings exist, nothing is
registered, no resolver runs, the pages below `i` are in the page cache and
present in `region0`, and the other pages of `region0` and all pages of
`region1` have no page table entry. -/
structure Touched (m : Machine) (N i : Nat) (w : World) : Prop where
  maps : w.maps = [(m.region0, m.kPageSize * N), (m.region1, m.kPageSize * N)]
  registered : w.registered = none
  resolver : w.resolver = none
  exitStatus : w.exitStatus = none
  queue : w.queue = []
  cached : ∀ j, j < i → w.cached j = true
  present0 : ∀ j, j < i → w.installed (m.region0 + j * m.kPageSize) = true
  missing0 : ∀ j, i ≤ j → j < N → w.installed (m.region0 + j * m.kPageSize) = false
  missing1 : ∀ j, j < N → w.installed (m.region1 + j * m.kPageSize) = false

/-- The state of the machine while `main` reads the pages of `region1`, before
it reads page `i`: both mappings exist, `region1` is registered, the resolver
waits, every page is in the page cache and present in `region0`, and the pages
of `region1` from `i` on have no page table entry yet. -/
structure Ready (m : Machine) (N i : Nat) (w : World) : Prop where
  maps : w.maps = [(m.region0, m.kPageSize * N), (m.region1, m.kPageSize * N)]
  registered : w.registered = some (m.region1, m.kPageSize * N)
  resolver : w.resolver = some { uffd := m.uffd, region0 := m.region0, region1 := m.region1 }
  exitStatus : w.exitStatus = none
  queue : w.queue = []
  cached : ∀ j, j < N → w.cached j = true
  present0 : ∀ j, j < N → w.installed (m.region0 + j * m.kPageSize) = true
  missing1 : ∀ j, i ≤ j → j < N → w.installed (m.region1 + j * m.kPageSize) = false

/-- The effects of a complete run of `main` with `N` pages on machine `m`. -/
def fullTrace (m : Machine) (N : Nat) : List Effect :=
  [Effect.memfd_create m.memfd,
    Effect.ftruncate m.memfd (m.kPageSize * N) 0,
    Effect.mmap (m.kPageSize * N) m.memfd m.region0,
    Effect.mmap (m.kPageSize * N) m.memfd m.region1] ++
  (List.range' 0 N).map (fun j => Effect.store (m.region0 + j * m.kPageSize) 97) ++
  [Effect.userfaultfd (m.hdr.O_CLOEXEC ||| m.hdr.O_NONBLOCK ||| m.hdr.UFFD_USER_MODE_ONLY) m.uffd,
    Effect.uffdioApi m.uffd m.hdr.UFFD_API m.hdr.UFFD_FEATURE_MINOR_SHMEM 0 m.hdr.UFFD_API
      m.features,
    Effect.uffdioRegister m.uffd m.region1 (m.kPageSize * N) m.hdr.UFFDIO_REGISTER_MODE_MINOR 0
      m.ioctls,
    Effect.pthread_create ⟨m.uffd, m.region0, m.region1⟩ 0] ++
  (List.range' 0 N).map (fun j => Effect.load (m.region1 + j * m.kPageSize) (99 + j)) ++
  [Effect.munmap m.region0 (m.kPageSize * N) 0,
    Effect.munmap m.region1 (m.kPageSize * N) 0,
    Effect.close m.memfd 0]

/-- A Linux x86-64 machine with 4 KiB pages, the two mappings 1 MiB apart. -/
def linuxMachine : Machine where
  hdr := linuxHeader
  kPageSize := 4096
  memfd := 3
  uffd := 4
  region0 := 0x7f0000100000
  region1 := 0x7f0000000000
  features := 0x7ff
  ioctls := 0x9c

/-- The same machine handing out adjacent addresses for a store of three
pages, the second mapping directly below the first, as `mmap` does when it
allocates top-down. -/
def adjacentMachine : Machine :=
  { linuxMachine with region0 := 0x7f0000003000, region1 := 0x7f0000000000 }

/-- A state of machine `m` in the read loop of `main` for a store of three
pages of 4096 bytes: byte 0 of page `k` of the file is `bytes[k]`, every page is
in the page cache and present in `region0`, the pages of `region1` listed in
`present1` (by address) are present, and `queue` holds the unread events. -/
def demoWorld (m : Machine) (bytes : List Nat) (present1 : List Nat) (queue : List UffdMsg) :
    World where
  file := fun k => if k % 4096 = 0 then bytes.getD (k / 4096) 0 else 0
  fileSize := 12288
  cached := fun k => decide (k < 3)
  maps := [(m.region0, 12288), (m.region1, 12288)]
  registered := some (m.region1, 12288)
  installed := fun a =>
    decide (a ∈ [m.region0, m.region0 + 4096, m.region0 + 8192] ++ present1)
  queue := queue
  resolver := some { uffd := m.uffd, region0 := m.region0, region1 := m.region1 }
  exitStatus := none

/-! ## Basic facts about the program monad -/

theorem bind_eq {σ α β : Type} (x : Proc σ α) (f : α → Proc σ β) (s : σ) :
    (x >>= f) s = match x s with
      | .ok tr a s1 => (f a s1).after tr
      | .halt tr h s1 => .halt tr h s1 := rfl

theorem pure_eq {σ α : Type} (a : α) (s : σ) : (pure a : Proc σ α) s = .ok [] a s := rfl

/-- A pass of the resolver loop, written out call by call. -/
theorem FaultHandlerIteration_eq {σ : Type} (P : Platform σ) (hdr : UffdHeader)
    (kPageSize : Nat) (uffd : Int) (region0 region1 : Nat) (s : σ) :
    FaultHandlerIteration P hdr kPageSize uffd region0 region1 s =
      let p := P.poll uffd s
      let r := P.read uffd hdr.sizeof_uffd_msg p.2
      let msg := r.1.2
      let offset := faultOffset region1 msg.address
      let page := ptrAdd region0 offset
      let byte := pageChar kPageSize offset
      let st := P.store page byte r.2
      let c := P.uffdioContinue uffd msg.address kPageSize st.2
      match p.1 with
      | none => .halt [] .blocked p.2
      | some n =>
        if n = -1 then .halt [Effect.poll uffd n] (.exited 1) p.2
        else if toU64 r.1.1 ≠ hdr.sizeof_uffd_msg ∨ msg.event ≠ hdr.UFFD_EVENT_PAGEFAULT ∨
            offset % kPageSize ≠ 0 then
          .halt [Effect.poll uffd n, Effect.read uffd hdr.sizeof_uffd_msg r.1.1 msg] (.exited 1) r.2
        else
          match st.1 with
          | none =>
            .halt [Effect.poll uffd n, Effect.read uffd hdr.sizeof_uffd_msg r.1.1 msg] .blocked st.2
          | some _ =>
            if c.1 = -1 then
              .halt [Effect.poll uffd n, Effect.read uffd hdr.sizeof_uffd_msg r.1.1 msg,
                Effect.store page byte, Effect.uffdioContinue uffd msg.address kPageSize c.1]
                (.exited 1) c.2
            else
              .ok [Effect.poll uffd n, Effect.read uffd hdr.sizeof_uffd_msg r.1.1 msg,
                Effect.store page byte, Effect.uffdioContinue uffd msg.address kPageSize c.1]
                () c.2 := by
  simp only [FaultHandlerIteration, bind_eq, callBlocking, call, CHECK_NE, CHECK_EQ, __LCHECK]
  cases hp : (P.poll uffd s).1 with
  | none => simp
  | some n =>
    by_cases hn : n = -1
    · simp [hn, Step.after]
    · by_cases h1 : toU64 (P.read uffd hdr.sizeof_uffd_msg (P.poll uffd s).2).1.1 =
          hdr.sizeof_uffd_msg
      · by_cases h2 : (P.read uffd hdr.sizeof_uffd_msg (P.poll uffd s).2).1.2.event =
            hdr.UFFD_EVENT_PAGEFAULT
        · by_cases h3 : faultOffset region1
              (P.read uffd hdr.sizeof_uffd_msg (P.poll uffd s).2).1.2.address % kPageSize = 0
          · cases hs : (P.store (ptrAdd region0 (faultOffset region1
                (P.read uffd hdr.sizeof_uffd_msg (P.poll uffd s).2).1.2.address))
                (pageChar kPageSize (faultOffset region1
                (P.read uffd hdr.sizeof_uffd_msg (P.poll uffd s).2).1.2.address))
                (P.read uffd hdr.sizeof_uffd_msg (P.poll uffd s).2).2).1 with
            | none => simp [hn, h1, h2, h3, Step.after, hs]
            | some u =>
              by_cases hc : (P.uffdioContinue uffd
                  (P.read uffd hdr.sizeof_uffd_msg (P.poll uffd s).2).1.2.address kPageSize
                  (P.store (ptrAdd region0 (faultOffset region1
                    (P.read uffd hdr.sizeof_uffd_msg (P.poll uffd s).2).1.2.address))
                    (pageChar kPageSize (faultOffset region1
                    (P.read uffd hdr.sizeof_uffd_msg (P.poll uffd s).2).1.2.address))
                    (P.read uffd hdr.sizeof_uffd_msg (P.poll uffd s).2).2).2).1 = -1
              · simp [hn, h1, h2, h3, Step.after, hs, hc]
              · simp [hn, h1, h2, h3, Step.after, hs, hc]
          · simp [hn, h1, h2, h3, Step.after]
        · simp [hn, h1, h2, Step.after]
      · simp [hn, h1, Step.after]

/-! ## Machine arithmetic facts -/

theorem toU64_eq_iff_of_int (ret : Int) (n : Nat) (hn : n < 2 ^ 63)
    (hlo : -(2 ^ 31) ≤ ret) (hhi : ret < 2 ^ 31) : toU64 ret = n ↔ ret = (n : Int) := by
  unfold toU64
  omega

/-! ## The resolver: reads that are not one page-fault message (C5) -/

/-- C5.  In a pass of the resolver loop that gets to its `read` (the `poll`
returned something other than `-1`): if the count returned is not
`sizeof(uffd_msg)`, or the event kind of the message is not
`UFFD_EVENT_PAGEFAULT`, the pass ends in `exit(1)` right after the `read`, its
only effects being the `poll` and the `read` (no offset is used, no byte is
stored, no completion directive is issued); and a store or a completion
directive occurs in a pass only if the `read` returned exactly
`sizeof(uffd_msg)` and a message of the page-fault kind. -/
theorem bad_read_aborts_before_processing {σ : Type} (P : Platform σ) (hdr : UffdHeader)
    (kPageSize : Nat) (uffd : Int) (region0 region1 : Nat) (s : σ) (n : Int)
    (hsz : hdr.sizeof_uffd_msg < 2 ^ 63)
    (hpoll : (P.poll uffd s).1 = some n) (hn : n ≠ -1)
    (hlo : -(2 ^ 31) ≤ (P.read uffd hdr.sizeof_uffd_msg (P.poll uffd s).2).1.1)
    (hhi : (P.read uffd hdr.sizeof_uffd_msg (P.poll uffd s).2).1.1 < 2 ^ 31) :
    ((P.read uffd hdr.sizeof_uffd_msg (P.poll uffd s).2).1.1 ≠ (hdr.sizeof_uffd_msg : Int) ∨
        (P.read uffd hdr.sizeof_uffd_msg (P.poll uffd s).2).1.2.event ≠ hdr.UFFD_EVENT_PAGEFAULT →
      FaultHandlerIteration P hdr kPageSize uffd region0 region1 s =
        .halt [Effect.poll uffd n,
          Effect.read uffd hdr.sizeof_uffd_msg
            (P.read uffd hdr.sizeof_uffd_msg (P.poll uffd s).2).1.1
            (P.read uffd hdr.sizeof_uffd_msg (P.poll uffd s).2).1.2]
          (.exited 1) (P.read uffd hdr.sizeof_uffd_msg (P.poll uffd s).2).2) ∧
    ((∃ e ∈ (FaultHandlerIteration P hdr kPageSize uffd region0 region1 s).trace,
        e.isStore = true ∨ e.isContinue = true) →
      (P.read uffd hdr.sizeof_uffd_msg (P.poll uffd s).2).1.1 = (hdr.sizeof_uffd_msg : Int) ∧
        (P.read uffd hdr.sizeof_uffd_msg (P.poll uffd s).2).1.2.event =
          hdr.UFFD_EVENT_PAGEFAULT) := by
  have hiff := toU64_eq_iff_of_int _ _ hsz hlo hhi
  rw [FaultHandlerIteration_eq]
  simp only [hpoll, if_neg hn]
  constructor
  · intro hbad
    have hb : toU64 (P.read uffd hdr.sizeof_uffd_msg (P.poll uffd s).2).1.1 ≠
          hdr.sizeof_uffd_msg ∨
        (P.read uffd hdr.sizeof_uffd_msg (P.poll uffd s).2).1.2.event ≠
          hdr.UFFD_EVENT_PAGEFAULT ∨
        faultOffset region1 (P.read uffd hdr.sizeof_uffd_msg (P.poll uffd s).2).1.2.address %
          kPageSize ≠ 0 := by
      rcases hbad with h | h
      · exact Or.inl (fun h' => h (hiff.mp h'))
      · exact Or.inr (Or.inl h)
    rw [if_pos hb]
  · rintro ⟨e, he, hk⟩
    by_contra hgood
    have hb : toU64 (P.read uffd hdr.sizeof_uffd_msg (P.poll uffd s).2).1.1 ≠
          hdr.sizeof_uffd_msg ∨
        (P.read uffd hdr.sizeof_uffd_msg (P.poll uffd s).2).1.2.event ≠
          hdr.UFFD_EVENT_PAGEFAULT ∨
        faultOffset region1 (P.read uffd hdr.sizeof_uffd_msg (P.poll uffd s).2).1.2.address %
          kPageSize ≠ 0 := by
      by_cases h1 : (P.read uffd hdr.sizeof_uffd_msg (P.poll uffd s).2).1.1 =
          (hdr.sizeof_uffd_msg : Int)
      · right; left
        intro h2
        exact hgood ⟨h1, h2⟩
      · left
        intro h'
        exact h1 (hiff.mp h')
    rw [if_pos hb] at he
    simp only [Step.trace, List.mem_cons, List.mem_singleton, List.not_mem_nil, or_false] at he
    rcases he with rfl | rfl <;> simp [Effect.isStore, Effect.isContinue] at hk


/-! ## The resolver: one completion directive per handled event (C8) -/

theorem address_aligned_of_offset_aligned (kPageSize region1 address : Nat)
    (hpow : kPageSize ∣ 2 ^ 64) (hbase : region1 % kPageSize = 0)
    (hoff : faultOffset region1 address % kPageSize = 0) : address % kPageSize = 0 := by
  have h1 : (kPageSize : Int) ∣ ((faultOffset region1 address : Nat) : Int) :=
    Int.natCast_dvd_natCast.mpr (Nat.dvd_of_mod_eq_zero hoff)
  have h2 : (kPageSize : Int) ∣ (region1 : Int) :=
    Int.natCast_dvd_natCast.mpr (Nat.dvd_of_mod_eq_zero hbase)
  have h3 : (kPageSize : Int) ∣ (2 ^ 64 : Int) := by
    have := Int.natCast_dvd_natCast.mpr hpow
    simpa using this
  have h4 : ((faultOffset region1 address : Nat) : Int) =
      ((address : Int) - (region1 : Int)) % (2 ^ 64 : Int) := by
    unfold faultOffset toU64
    omega
  rw [h4] at h1
  have h5 : (kPageSize : Int) ∣ (address : Int) - (region1 : Int) := by
    apply Int.dvd_of_emod_eq_zero
    rw [← Int.emod_emod_of_dvd _ h3]
    exact Int.emod_eq_zero_of_dvd h1
  have h6 : (kPageSize : Int) ∣ (address : Int) := by
    have := Int.dvd_add h5 h2
    simpa using this
  exact Nat.mod_eq_zero_of_dvd (Int.natCast_dvd_natCast.mp h6)

/-- C8.  A pass of the resolver loop that completes without stopping has
exactly these four effects: the `poll`, the `read` of the event, the store,
and one `UFFDIO_CONTINUE` whose range starts at the faulting address of the
event read and is `kPageSize` long, and which the kernel accepted.  When the
page size divides `2 ^ 64` (it is a power of two) and `region1` is page-aligned,
that start address is page-aligned. -/
theorem handled_event_one_continue {σ : Type} (P : Platform σ) (hdr : UffdHeader)
    (kPageSize : Nat) (uffd : Int) (region0 region1 : Nat) (s : σ)
    (hok : (FaultHandlerIteration P hdr kPageSize uffd region0 region1 s).halted = none) :
    ∃ n ret msg c,
      (FaultHandlerIteration P hdr kPageSize uffd region0 region1 s).trace =
        [Effect.poll uffd n, Effect.read uffd hdr.sizeof_uffd_msg ret msg,
          Effect.store (ptrAdd region0 (faultOffset region1 msg.address))
            (pageChar kPageSize (faultOffset region1 msg.address)),
          Effect.uffdioContinue uffd msg.address kPageSize c] ∧
      (FaultHandlerIteration P hdr kPageSize uffd region0 region1 s).trace.filter
          Effect.isContinue = [Effect.uffdioContinue uffd msg.address kPageSize c] ∧
      c ≠ -1 ∧
      (kPageSize ∣ 2 ^ 64 → region1 % kPageSize = 0 → msg.address % kPageSize = 0) := by
  rw [FaultHandlerIteration_eq] at hok ⊢
  simp only at hok ⊢
  generalize P.poll uffd s = p at hok ⊢
  generalize P.read uffd hdr.sizeof_uffd_msg p.2 = r at hok ⊢
  generalize hst : P.store (ptrAdd region0 (faultOffset region1 r.1.2.address))
    (pageChar kPageSize (faultOffset region1 r.1.2.address)) r.2 = st at hok ⊢
  generalize P.uffdioContinue uffd r.1.2.address kPageSize st.2 = c at hok ⊢
  obtain ⟨_ | n, s1⟩ := p
  · simp [Step.halted] at hok
  · obtain ⟨_ | u, s3⟩ := st
    · simp only at hok
      split_ifs at hok <;> simp [Step.halted] at hok
    · simp only at hok ⊢
      split_ifs at hok ⊢ with hn hb hc
      · simp [Step.halted] at hok
      · simp [Step.halted] at hok
      · simp [Step.halted] at hok
      · simp only [not_or, not_not, ne_eq] at hb
        refine ⟨n, _, _, _, rfl, ?_, hc, ?_⟩
        · simp [Step.trace, Effect.isContinue]
        · intro hpow hbase
          exact address_aligned_of_offset_aligned _ _ _ hpow hbase hb.2.2


/-! ## The resolver: a rejected completion directive ends the process (C4) -/

theorem Step.trace_after {σ α : Type} (tr : List Effect) (x : Step σ α) :
    (x.after tr).trace = tr ++ x.trace := by
  cases x <;> rfl

theorem Step.halted_after {σ α : Type} (tr : List Effect) (x : Step σ α) :
    (x.after tr).halted = x.halted := by
  cases x <;> rfl

theorem Step.after_nil {σ α : Type} (x : Step σ α) : x.after [] = x := by
  cases x <;> rfl

/-- In one pass, a rejected completion directive is the last effect and the
pass ends in `exit(1)`; a pass that completes contains none. -/
theorem FaultHandlerIteration_rejected {σ : Type} (P : Platform σ) (hdr : UffdHeader)
    (kPageSize : Nat) (uffd : Int) (region0 region1 : Nat) (s : σ) (fd : Int) (a len : Nat)
    (h : Effect.uffdioContinue fd a len (-1) ∈
      (FaultHandlerIteration P hdr kPageSize uffd region0 region1 s).trace) :
    (FaultHandlerIteration P hdr kPageSize uffd region0 region1 s).halted = some (.exited 1) ∧
    (FaultHandlerIteration P hdr kPageSize uffd region0 region1 s).trace.getLast? =
      some (Effect.uffdioContinue fd a len (-1)) := by
  rw [FaultHandlerIteration_eq] at h ⊢
  simp only at h ⊢
  generalize P.poll uffd s = p at h ⊢
  generalize P.read uffd hdr.sizeof_uffd_msg p.2 = r at h ⊢
  generalize hst : P.store (ptrAdd region0 (faultOffset region1 r.1.2.address))
    (pageChar kPageSize (faultOffset region1 r.1.2.address)) r.2 = st at h ⊢
  generalize P.uffdioContinue uffd r.1.2.address kPageSize st.2 = c at h ⊢
  obtain ⟨_ | n, s1⟩ := p
  · simp [Step.trace] at h
  · obtain ⟨_ | u, s3⟩ := st
    · simp only at h
      split_ifs at h <;> simp [Step.trace] at h
    · simp only at h ⊢
      split_ifs at h ⊢ with hn hb hc
      · simp [Step.trace] at h
      · simp [Step.trace] at h
      · simp only [Step.trace, List.mem_cons, List.mem_singleton, List.not_mem_nil, or_false,
          reduceCtorEq, false_or, Effect.uffdioContinue.injEq] at h
        obtain ⟨rfl, rfl, rfl, hc'⟩ := h
        simp [Step.halted, Step.trace, hc]
      · simp only [Step.trace, List.mem_cons, List.mem_singleton, List.not_mem_nil, or_false,
          reduceCtorEq, false_or, Effect.uffdioContinue.injEq] at h
        exact absurd h.2.2.2.symm hc

theorem FaultHandlerLoop_rejected {σ : Type} (P : Platform σ) (hdr : UffdHeader)
    (kPageSize : Nat) (uffd : Int) (region0 region1 : Nat) (fd : Int) (a len : Nat) :
    ∀ (fuel : Nat) (s : σ),
      Effect.uffdioContinue fd a len (-1) ∈
        (FaultHandlerLoop P hdr kPageSize uffd region0 region1 fuel s).trace →
      (FaultHandlerLoop P hdr kPageSize uffd region0 region1 fuel s).halted =
          some (.exited 1) ∧
      (FaultHandlerLoop P hdr kPageSize uffd region0 region1 fuel s).trace.getLast? =
        some (Effect.uffdioContinue fd a len (-1)) := by
  intro fuel
  induction fuel with
  | zero =>
    intro s h
    simp [FaultHandlerLoop, pure_eq, Step.trace] at h
  | succ k ih =>
    intro s h
    have hit := FaultHandlerIteration_rejected P hdr kPageSize uffd region0 region1 s fd a len
    simp only [FaultHandlerLoop, bind_eq] at h ⊢
    cases hx : FaultHandlerIteration P hdr kPageSize uffd region0 region1 s with
    | ok tr u s1 =>
      rw [hx] at hit
      simp only [hx, Step.trace_after, Step.halted_after, List.mem_append] at h ⊢
      rcases h with h | h
      · have := (hit h).1
        simp [Step.halted] at this
      · obtain ⟨h1, h2⟩ := ih s1 h
        refine ⟨h1, ?_⟩
        rw [List.getLast?_append, h2]
        rfl
    | halt tr hh s1 =>
      rw [hx] at hit
      simp only [hx] at h ⊢
      exact hit h

/-- C4.  Whenever, in a run of `FaultHandlerThread` of any length, a
`UFFDIO_CONTINUE` returns `-1`, the thread has called `exit(1)` and the rejected
call is the last thing it did: no `poll`, `read`, store or completion directive
follows it. -/
theorem rejected_continue_exits {σ : Type} (P : Platform σ) (hdr : UffdHeader)
    (kPageSize : Nat) (init : Init) (fuel : Nat) (s : σ) (fd : Int) (a len : Nat)
    (h : Effect.uffdioContinue fd a len (-1) ∈
      (FaultHandlerThread P hdr kPageSize init fuel s).trace) :
    (FaultHandlerThread P hdr kPageSize init fuel s).halted = some (.exited 1) ∧
    (FaultHandlerThread P hdr kPageSize init fuel s).trace.getLast? =
      some (Effect.uffdioContinue fd a len (-1)) := by
  have hl := FaultHandlerLoop_rejected P hdr kPageSize init.uffd init.region0 init.region1
    fd a len fuel s
  by_cases h1 : init.uffd = -1
  · simp [FaultHandlerThread, bind_eq, CHECK_NE, __LCHECK, h1, Step.trace] at h
  by_cases h2 : init.region0 = nullptr
  · simp [FaultHandlerThread, bind_eq, CHECK_NE, __LCHECK, h1, h2, Step.trace, Step.after] at h
  by_cases h3 : init.region1 = nullptr
  · simp [FaultHandlerThread, bind_eq, CHECK_NE, __LCHECK, h1, h2, h3, Step.trace,
      Step.after] at h
  by_cases h4 : init.region0 = init.region1
  · simp [FaultHandlerThread, bind_eq, CHECK_NE, __LCHECK, h1, h2, h3, h4, Step.trace,
      Step.after] at h
  have he : FaultHandlerThread P hdr kPageSize init fuel s =
      FaultHandlerLoop P hdr kPageSize init.uffd init.region0 init.region1 fuel s := by
    simp [FaultHandlerThread, bind_eq, CHECK_NE, __LCHECK, h1, h2, h3, h4, Step.after_nil]
  rw [he] at h ⊢
  exact hl h

/-! ## The backing store (C6) -/

/-- C6.  The constructor of `Shmem` returns exactly when `size` is a multiple
of the page size, `memfd_create` returned a non-negative descriptor and
`ftruncate` of that descriptor to `size` returned `0`; otherwise it ends in
`exit(1)`; and the object it returns reports `size()` equal to the size passed
in. -/
theorem Shmem_ctor_completes_iff {σ : Type} (P : Platform σ) (kPageSize size : Nat) (s : σ) :
    ((Shmem.ctor P kPageSize size s).halted = none ↔
      (kPageSize ∣ size ∧ 0 ≤ (P.memfd_create s).1 ∧
        (P.ftruncate (P.memfd_create s).1 size (P.memfd_create s).2).1 = 0)) ∧
    ((Shmem.ctor P kPageSize size s).halted ≠ none →
      (Shmem.ctor P kPageSize size s).halted = some (.exited 1)) ∧
    (∀ sh, (Shmem.ctor P kPageSize size s).value = some sh → sh.size = size) := by
  simp only [Shmem.ctor, bind_eq, pure_eq, call, CHECK_EQ, CHECK_GE, __LCHECK,
    Nat.dvd_iff_mod_eq_zero]
  by_cases h1 : size % kPageSize = 0 <;> by_cases h2 : 0 ≤ (P.memfd_create s).1 <;>
    by_cases h3 : (P.ftruncate (P.memfd_create s).1 size (P.memfd_create s).2).1 = 0 <;>
    simp [h1, h2, h3, Step.after, Step.halted, Step.value, Shmem.size]


/-! ## The resolver: alignment is the only check on the offset (C2) -/

/-- C2, as the code has it.  For an event read in full and of the page-fault
kind: if `offset = address - region1` (in `uint64_t`) is not a multiple of the
page size, the pass ends in `exit(1)` with no store and no completion directive.
The offset is not compared with the size of the store: for every page-aligned
offset, inside the store or not, the resolver stores to `region0 + offset`, and
once that store has completed it issues the completion directive for the
faulting address; it then stops only if the kernel rejects the directive. -/
theorem misaligned_offset_aborts {σ : Type} (P : Platform σ) (hdr : UffdHeader)
    (kPageSize : Nat) (uffd : Int) (region0 region1 : Nat) (s : σ) (n : Int)
    (hpoll : (P.poll uffd s).1 = some n) (hn : n ≠ -1)
    (hret : toU64 (P.read uffd hdr.sizeof_uffd_msg (P.poll uffd s).2).1.1 =
      hdr.sizeof_uffd_msg)
    (hev : (P.read uffd hdr.sizeof_uffd_msg (P.poll uffd s).2).1.2.event =
      hdr.UFFD_EVENT_PAGEFAULT) :
    (faultOffset region1 (P.read uffd hdr.sizeof_uffd_msg (P.poll uffd s).2).1.2.address %
        kPageSize ≠ 0 →
      FaultHandlerIteration P hdr kPageSize uffd region0 region1 s =
        .halt [Effect.poll uffd n,
          Effect.read uffd hdr.sizeof_uffd_msg
            (P.read uffd hdr.sizeof_uffd_msg (P.poll uffd s).2).1.1
            (P.read uffd hdr.sizeof_uffd_msg (P.poll uffd s).2).1.2]
          (.exited 1) (P.read uffd hdr.sizeof_uffd_msg (P.poll uffd s).2).2) ∧
    (faultOffset region1 (P.read uffd hdr.sizeof_uffd_msg (P.poll uffd s).2).1.2.address %
        kPageSize = 0 →
      (P.store
        (ptrAdd region0 (faultOffset region1
          (P.read uffd hdr.sizeof_uffd_msg (P.poll uffd s).2).1.2.address))
        (pageChar kPageSize (faultOffset region1
          (P.read uffd hdr.sizeof_uffd_msg (P.poll uffd s).2).1.2.address))
        (P.read uffd hdr.sizeof_uffd_msg (P.poll uffd s).2).2).1 = some () →
      ∃ c,
        (FaultHandlerIteration P hdr kPageSize uffd region0 region1 s).trace =
          [Effect.poll uffd n,
            Effect.read uffd hdr.sizeof_uffd_msg
              (P.read uffd hdr.sizeof_uffd_msg (P.poll uffd s).2).1.1
              (P.read uffd hdr.sizeof_uffd_msg (P.poll uffd s).2).1.2,
            Effect.store
              (ptrAdd region0 (faultOffset region1
                (P.read uffd hdr.sizeof_uffd_msg (P.poll uffd s).2).1.2.address))
              (pageChar kPageSize (faultOffset region1
                (P.read uffd hdr.sizeof_uffd_msg (P.poll uffd s).2).1.2.address)),
            Effect.uffdioContinue uffd
              (P.read uffd hdr.sizeof_uffd_msg (P.poll uffd s).2).1.2.address kPageSize c] ∧
        (FaultHandlerIteration P hdr kPageSize uffd region0 region1 s).halted =
          if c = -1 then some (.exited 1) else none) := by
  rw [FaultHandlerIteration_eq]
  simp only [hpoll, if_neg hn]
  constructor
  · intro hoff
    rw [if_pos (Or.inr (Or.inr hoff))]
  · intro hoff hst
    have hb : ¬ (toU64 (P.read uffd hdr.sizeof_uffd_msg (P.poll uffd s).2).1.1 ≠
          hdr.sizeof_uffd_msg ∨
        (P.read uffd hdr.sizeof_uffd_msg (P.poll uffd s).2).1.2.event ≠
          hdr.UFFD_EVENT_PAGEFAULT ∨
        faultOffset region1 (P.read uffd hdr.sizeof_uffd_msg (P.poll uffd s).2).1.2.address %
          kPageSize ≠ 0) := by
      simp [hret, hev, hoff]
    rw [if_neg hb]
    simp only [hst]
    refine ⟨(P.uffdioContinue uffd
      (P.read uffd hdr.sizeof_uffd_msg (P.poll uffd s).2).1.2.address kPageSize
      (P.store
        (ptrAdd region0 (faultOffset region1
          (P.read uffd hdr.sizeof_uffd_msg (P.poll uffd s).2).1.2.address))
        (pageChar kPageSize (faultOffset region1
          (P.read uffd hdr.sizeof_uffd_msg (P.poll uffd s).2).1.2.address))
        (P.read uffd hdr.sizeof_uffd_msg (P.poll uffd s).2).2).2).1, ?_, ?_⟩
    · split_ifs <;> rfl
    · split_ifs <;> rfl


/-! ## The initiator: shape of its trace -/

theorem touchPages_shape {σ : Type} (P : Platform σ) (kPageSize region0 : Nat) :
    ∀ (n i : Nat) (s : σ),
      (∃ s1, touchPages P kPageSize region0 i n s =
        .ok ((List.range' i n).map
          (fun j => Effect.store (ptrAdd region0 (pageOffset kPageSize j)) 97)) () s1) ∨
      (∃ tr s1, touchPages P kPageSize region0 i n s = .halt tr .blocked s1 ∧
        ∀ e ∈ tr, e.isRegister = false ∧ e.isThreadCreate = false) := by
  intro n
  induction n with
  | zero =>
    intro i s
    left
    exact ⟨s, rfl⟩
  | succ k ih =>
    intro i s
    simp only [touchPages, bind_eq, callBlocking]
    cases hst : (P.store (ptrAdd region0 (pageOffset kPageSize i)) 97 s).1 with
    | none =>
      right
      exact ⟨[], _, rfl, by simp⟩
    | some u =>
      simp only
      rcases ih (i + 1) (P.store (ptrAdd region0 (pageOffset kPageSize i)) 97 s).2 with
        ⟨s1, h⟩ | ⟨tr, s1, h, hall⟩
      · left
        refine ⟨s1, ?_⟩
        rw [h]
        simp [Step.after, List.range'_succ]
      · right
        refine ⟨_, s1, by rw [h]; rfl, ?_⟩
        intro e he
        simp only [List.mem_append, List.mem_singleton] at he
        rcases he with rfl | he
        · simp [Effect.isRegister, Effect.isThreadCreate]
        · exact hall e he

theorem readPages_trace {σ : Type} (P : Platform σ) (kPageSize region1 : Nat) :
    ∀ (n i : Nat) (s : σ), ∀ e ∈ (readPages P kPageSize region1 i n s).trace,
      ∃ a b, e = Effect.load a b := by
  intro n
  induction n with
  | zero =>
    intro i s e he
    simp [readPages, pure_eq, Step.trace] at he
  | succ k ih =>
    intro i s e he
    simp only [readPages, bind_eq, callBlocking, CHECK_EQ, __LCHECK] at he
    cases hl : (P.load (ptrAdd region1 (pageOffset kPageSize i)) s).1 with
    | none => simp [hl, Step.trace] at he
    | some v =>
      simp only [hl] at he
      split_ifs at he with hc
      · simp only [Step.after_nil, Step.trace_after, List.mem_append, List.mem_singleton] at he
        rcases he with rfl | he
        · exact ⟨_, _, rfl⟩
        · exact ih _ _ e he
      · simp only [Step.after, Step.trace, List.append_nil, List.mem_singleton] at he
        exact ⟨_, _, he⟩

theorem unmapRegions_trace {σ : Type} (P : Platform σ) (size : Nat) :
    ∀ (regions : List Nat) (s : σ), ∀ e ∈ (Shmem.unmapRegions P size regions s).trace,
      ∃ a n r, e = Effect.munmap a n r := by
  intro regions
  induction regions with
  | nil =>
    intro s e he
    simp [Shmem.unmapRegions, pure_eq, Step.trace] at he
  | cons region rest ih =>
    intro s e he
    simp only [Shmem.unmapRegions, bind_eq, call, CHECK_EQ, __LCHECK] at he
    split_ifs at he with hc
    · simp only [Step.after_nil, Step.trace_after, List.mem_append, List.mem_singleton] at he
      rcases he with rfl | he
      · exact ⟨_, _, _, rfl⟩
      · exact ih _ e he
    · simp only [Step.after, Step.trace, List.append_nil, List.mem_singleton] at he
      exact ⟨_, _, _, he⟩

theorem dtor_trace {σ : Type} (P : Platform σ) (sh : Shmem) (s : σ) :
    ∀ e ∈ (Shmem.dtor P sh s).trace,
      (∃ a n r, e = Effect.munmap a n r) ∨ (∃ fd r, e = Effect.close fd r) := by
  intro e he
  simp only [Shmem.dtor, bind_eq, call, CHECK_EQ, __LCHECK] at he
  have hu := unmapRegions_trace P sh.size_ sh.regions_ s
  cases hx : Shmem.unmapRegions P sh.size_ sh.regions_ s with
  | halt tr h s1 =>
    rw [hx] at hu he
    exact Or.inl (hu e he)
  | ok tr u s1 =>
    rw [hx] at hu he
    simp only [Step.trace] at hu
    simp only [Step.trace_after, List.mem_append, List.mem_singleton] at he
    rcases he with he | rfl | he
    · exact Or.inl (hu e he)
    · exact Or.inr ⟨_, _, rfl⟩
    · split_ifs at he <;> simp [Step.trace] at he


theorem ctor_cases {σ : Type} (P : Platform σ) (kPageSize size : Nat) (s : σ) :
    (∃ fd s1, Shmem.ctor P kPageSize size s =
      .ok [Effect.memfd_create fd, Effect.ftruncate fd size 0]
        { size_ := size, memfd_ := fd, regions_ := [] } s1) ∨
    (∃ tr h s1, Shmem.ctor P kPageSize size s = .halt tr h s1 ∧
      ∀ e ∈ tr, e.isRegister = false ∧ e.isThreadCreate = false) := by
  simp only [Shmem.ctor, bind_eq, pure_eq, call, CHECK_EQ, CHECK_GE, __LCHECK]
  by_cases h1 : size % kPageSize = 0 <;> by_cases h2 : 0 ≤ (P.memfd_create s).1 <;>
    by_cases h3 : (P.ftruncate (P.memfd_create s).1 size (P.memfd_create s).2).1 = 0 <;>
    simp [h1, h2, h3, Step.after, Effect.isRegister, Effect.isThreadCreate]

theorem GetNewRegion_cases {σ : Type} (P : Platform σ) (sh : Shmem) (s : σ) :
    (∃ r s1, Shmem.GetNewRegion P sh s =
      .ok [Effect.mmap sh.size_ sh.memfd_ r]
        (r, { size_ := sh.size_, memfd_ := sh.memfd_, regions_ := sh.regions_ ++ [r] }) s1) ∨
    (∃ tr h s1, Shmem.GetNewRegion P sh s = .halt tr h s1 ∧
      ∀ e ∈ tr, e.isRegister = false ∧ e.isThreadCreate = false) := by
  simp only [Shmem.GetNewRegion, bind_eq, pure_eq, call, CHECK_NE, __LCHECK]
  by_cases h1 : (P.mmap sh.size_ sh.memfd_ s).1 = MAP_FAILED <;>
    simp [h1, Step.after, Effect.isRegister, Effect.isThreadCreate]

/-- Either `main` stops before it asks for the registration, having made no
registration request and created no thread, or its trace starts with the
creation of the store, the two mappings, the `kNumPages` stores of `'a'`, and a
single registration of the second mapping, and continues without any further
registration request or store. -/
theorem main_trace_shape {σ : Type} (P : Platform σ) (hdr : UffdHeader)
    (kPageSize kNumPages : Nat) (s : σ) :
    ((main P hdr kPageSize kNumPages s).halted ≠ none ∧
      ∀ e ∈ (main P hdr kPageSize kNumPages s).trace,
        e.isRegister = false ∧ e.isThreadCreate = false) ∨
    ∃ fd r0 r1 uffd aret aapi afeat ret ioctls rest,
      r0 ≠ r1 ∧
      (main P hdr kPageSize kNumPages s).trace =
        [Effect.memfd_create fd,
          Effect.ftruncate fd ((kPageSize * kNumPages) % 2 ^ 64) 0,
          Effect.mmap ((kPageSize * kNumPages) % 2 ^ 64) fd r0,
          Effect.mmap ((kPageSize * kNumPages) % 2 ^ 64) fd r1] ++
        (List.range' 0 kNumPages).map
          (fun j => Effect.store (ptrAdd r0 (pageOffset kPageSize j)) 97) ++
        [Effect.userfaultfd (hdr.O_CLOEXEC ||| hdr.O_NONBLOCK ||| hdr.UFFD_USER_MODE_ONLY) uffd,
          Effect.uffdioApi uffd hdr.UFFD_API hdr.UFFD_FEATURE_MINOR_SHMEM aret aapi afeat,
          Effect.uffdioRegister uffd r1 ((kPageSize * kNumPages) % 2 ^ 64)
            hdr.UFFDIO_REGISTER_MODE_MINOR ret ioctls] ++ rest ∧
      ∀ e ∈ rest, e.isRegister = false ∧ e.isStore = false := by
  simp only [main, bind_eq]
  rcases ctor_cases P kPageSize ((kPageSize * kNumPages) % 2 ^ 64) s with
    ⟨fd, s1, hc⟩ | ⟨tr, h, s1, hc, hall⟩
  swap
  · left
    simp only [hc]
    exact ⟨by simp [Step.halted], hall⟩
  simp only [hc]
  rcases GetNewRegion_cases P
      { size_ := (kPageSize * kNumPages) % 2 ^ 64, memfd_ := fd, regions_ := [] } s1 with
    ⟨r0, s2, hg0⟩ | ⟨tr, h, s2, hg0, hall⟩
  swap
  · left
    simp only [hg0, Step.after, Step.halted, Step.trace]
    simpa [Effect.isRegister, Effect.isThreadCreate] using hall
  simp only [hg0]
  rcases GetNewRegion_cases P
      { size_ := (kPageSize * kNumPages) % 2 ^ 64, memfd_ := fd, regions_ := [] ++ [r0] } s2 with
    ⟨r1, s3, hg1⟩ | ⟨tr, h, s3, hg1, hall⟩
  swap
  · left
    simp only [hg1, Step.after, Step.halted, Step.trace]
    simpa [Effect.isRegister, Effect.isThreadCreate] using hall
  simp only [hg1, CHECK_NE, __LCHECK]
  by_cases h01 : r0 = r1
  · left
    simp [h01, Step.after, Step.halted, Step.trace, Effect.isRegister, Effect.isThreadCreate]
  simp only [h01, ne_eq, not_false_eq_true, decide_True, if_true]
  rcases touchPages_shape P kPageSize r0 kNumPages 0 s3 with ⟨s4, ht⟩ | ⟨tr, s4, ht, hall⟩
  swap
  · left
    simp only [ht, Step.after, Step.halted, Step.trace]
    simpa [Effect.isRegister, Effect.isThreadCreate] using hall
  simp only [ht, call, CHECK_GE, CHECK_EQ, __LCHECK]
  generalize hu : P.userfaultfd (hdr.O_CLOEXEC ||| hdr.O_NONBLOCK ||| hdr.UFFD_USER_MODE_ONLY) s4 = u
  by_cases hu0 : u.1 ≥ 0
  swap
  · left
    simp only [hu0, Step.after, Step.halted, Step.trace, decide_False, decide_True,
      Bool.false_eq_true, if_false, if_true, ne_eq, not_true_eq_false, not_false_eq_true]
    refine ⟨by simp, ?_⟩
    simp only [Step.trace, List.forall_mem_append, List.forall_mem_cons, List.forall_mem_map,
      List.forall_mem_singleton]
    simp [Effect.isRegister, Effect.isThreadCreate]
  simp only [hu0, decide_True, if_true]
  generalize ha : P.uffdioApi u.1 hdr.UFFD_API hdr.UFFD_FEATURE_MINOR_SHMEM u.2 = a
  by_cases ha1 : a.1.1 = -1
  · left
    simp only [ha1, Step.after, Step.halted, Step.trace, decide_False, decide_True,
      Bool.false_eq_true, if_false, if_true, ne_eq, not_true_eq_false, not_false_eq_true]
    refine ⟨by simp, ?_⟩
    simp only [Step.trace, List.forall_mem_append, List.forall_mem_cons, List.forall_mem_map,
      List.forall_mem_singleton]
    simp [Effect.isRegister, Effect.isThreadCreate]
  by_cases ha2 : a.1.2.1 = hdr.UFFD_API
  swap
  · left
    simp only [ha1, ha2, Step.after, Step.halted, Step.trace, decide_False, decide_True,
      Bool.false_eq_true, if_false, if_true, ne_eq, not_true_eq_false, not_false_eq_true]
    refine ⟨by simp, ?_⟩
    simp only [Step.trace, List.forall_mem_append, List.forall_mem_cons, List.forall_mem_map,
      List.forall_mem_singleton]
    simp [Effect.isRegister, Effect.isThreadCreate]
  by_cases ha3 : a.1.2.2 &&& hdr.UFFD_FEATURE_MINOR_SHMEM = 0
  · left
    simp only [ha1, ha2, ha3, Step.after, Step.halted, Step.trace, decide_False, decide_True,
      Bool.false_eq_true, if_false, if_true, ne_eq, not_true_eq_false, not_false_eq_true]
    refine ⟨by simp, ?_⟩
    simp only [Step.trace, List.forall_mem_append, List.forall_mem_cons, List.forall_mem_map,
      List.forall_mem_singleton]
    simp [Effect.isRegister, Effect.isThreadCreate]
  right
  simp only [ha1, ha2, ha3, ne_eq, not_false_eq_true, decide_True, decide_False, if_true,
    Step.after_nil, Step.trace_after]
  generalize hg : P.uffdioRegister u.1 r1 ((kPageSize * kNumPages) % 2 ^ 64)
    hdr.UFFDIO_REGISTER_MODE_MINOR a.2 = g
  by_cases hg1' : g.1.1 = -1
  · refine ⟨fd, r0, r1, u.1, a.1.1, a.1.2.1, a.1.2.2, g.1.1, g.1.2, [], h01, ?_, by simp⟩
    simp [hg1', Step.after, Step.trace, ha2]
  by_cases hg2 : g.1.2 &&& (1 <<< hdr.UFFDIO_CONTINUE_NR) % 2 ^ 64 = 0
  · refine ⟨fd, r0, r1, u.1, a.1.1, a.1.2.1, a.1.2.2, g.1.1, g.1.2, [], h01, ?_, by simp⟩
    simp only [hg1', hg2, not_false_eq_true, not_true_eq_false, decide_True, decide_False,
      if_true, if_false, Bool.false_eq_true, Step.after_nil, Step.trace_after]
    simp [Step.after, Step.trace, ha2]
  simp only [hg1', hg2, not_false_eq_true, decide_True, decide_False, if_true, if_false,
    Bool.false_eq_true, Step.after_nil, Step.trace_after]
  generalize hp : P.pthread_create { uffd := u.1, region0 := r0, region1 := r1 } g.2 = p
  by_cases hp0 : p.1 = 0
  swap
  · refine ⟨fd, r0, r1, u.1, a.1.1, a.1.2.1, a.1.2.2, g.1.1, g.1.2,
      [Effect.pthread_create { uffd := u.1, region0 := r0, region1 := r1 } p.1], h01, ?_, ?_⟩
    · simp [hp0, Step.after, Step.trace, ha2]
    · simp [Effect.isRegister, Effect.isStore]
  simp only [hp0, decide_True, if_true, Step.after_nil, Step.trace_after]
  have hrd := readPages_trace P kPageSize r1 kNumPages 0 p.2
  cases hr : readPages P kPageSize r1 0 kNumPages p.2 with
  | halt tr h s5 =>
    rw [hr] at hrd
    refine ⟨fd, r0, r1, u.1, a.1.1, a.1.2.1, a.1.2.2, g.1.1, g.1.2,
      Effect.pthread_create { uffd := u.1, region0 := r0, region1 := r1 } 0 :: tr, h01, ?_, ?_⟩
    · simp [Step.trace, ha2]
    · intro e he
      simp only [List.mem_cons] at he
      rcases he with rfl | he
      · simp [Effect.isRegister, Effect.isStore]
      · obtain ⟨x, y, rfl⟩ := hrd e he
        simp [Effect.isRegister, Effect.isStore]
  | ok tr v s5 =>
    rw [hr] at hrd
    simp only [Step.trace_after, pure_eq, List.nil_append, List.singleton_append]
    have hd := dtor_trace P ⟨(kPageSize * kNumPages) % 2 ^ 64, fd, [r0, r1]⟩ s5
    generalize Shmem.dtor P ⟨(kPageSize * kNumPages) % 2 ^ 64, fd, [r0, r1]⟩ s5 = d at hd ⊢
    refine ⟨fd, r0, r1, u.1, a.1.1, a.1.2.1, a.1.2.2, g.1.1, g.1.2,
      Effect.pthread_create { uffd := u.1, region0 := r0, region1 := r1 } 0 :: (tr ++ d.trace),
      h01, ?_, ?_⟩
    · cases d <;> simp [Step.trace, Step.after, ha2]
    · intro e he
      simp only [List.mem_cons, List.mem_append] at he
      rcases he with rfl | he | he
      · simp [Effect.isRegister, Effect.isStore]
      · obtain ⟨x, y, rfl⟩ := hrd e he
        simp [Effect.isRegister, Effect.isStore]
      · rcases hd e he with ⟨x, y, z, rfl⟩ | ⟨x, y, rfl⟩ <;>
          simp [Effect.isRegister, Effect.isStore]


/-! ## Population before completion, population before registration (C3) -/

theorem FaultHandlerIteration_store_before_continue {σ : Type} (P : Platform σ)
    (hdr : UffdHeader) (kPageSize : Nat) (uffd : Int) (region0 region1 : Nat) (s : σ)
    (fd : Int) (a len : Nat) (ret : Int)
    (h : Effect.uffdioContinue fd a len ret ∈
      (FaultHandlerIteration P hdr kPageSize uffd region0 region1 s).trace) :
    [Effect.store (ptrAdd region0 (faultOffset region1 a))
        (pageChar kPageSize (faultOffset region1 a)),
      Effect.uffdioContinue fd a len ret] <:+:
      (FaultHandlerIteration P hdr kPageSize uffd region0 region1 s).trace := by
  rw [FaultHandlerIteration_eq] at h ⊢
  simp only at h ⊢
  generalize P.poll uffd s = p at h ⊢
  generalize P.read uffd hdr.sizeof_uffd_msg p.2 = r at h ⊢
  generalize hst : P.store (ptrAdd region0 (faultOffset region1 r.1.2.address))
    (pageChar kPageSize (faultOffset region1 r.1.2.address)) r.2 = st at h ⊢
  generalize P.uffdioContinue uffd r.1.2.address kPageSize st.2 = c at h ⊢
  obtain ⟨_ | n, s1⟩ := p
  · simp [Step.trace] at h
  · obtain ⟨_ | u, s3⟩ := st
    · simp only at h
      split_ifs at h <;> simp [Step.trace] at h
    · simp only at h ⊢
      split_ifs at h ⊢ with hn hb hc
      · simp [Step.trace] at h
      · simp [Step.trace] at h
      · simp only [Step.trace, List.mem_cons, List.mem_singleton, List.not_mem_nil, or_false,
          reduceCtorEq, false_or, Effect.uffdioContinue.injEq] at h
        obtain ⟨rfl, rfl, rfl, rfl⟩ := h
        exact ⟨[Effect.poll fd n, Effect.read fd hdr.sizeof_uffd_msg r.1.1 r.1.2], [], rfl⟩
      · simp only [Step.trace, List.mem_cons, List.mem_singleton, List.not_mem_nil, or_false,
          reduceCtorEq, false_or, Effect.uffdioContinue.injEq] at h
        obtain ⟨rfl, rfl, rfl, rfl⟩ := h
        exact ⟨[Effect.poll fd n, Effect.read fd hdr.sizeof_uffd_msg r.1.1 r.1.2], [], rfl⟩

theorem FaultHandlerLoop_store_before_continue {σ : Type} (P : Platform σ)
    (hdr : UffdHeader) (kPageSize : Nat) (uffd : Int) (region0 region1 : Nat)
    (fd : Int) (a len : Nat) (ret : Int) :
    ∀ (fuel : Nat) (s : σ),
      Effect.uffdioContinue fd a len ret ∈
        (FaultHandlerLoop P hdr kPageSize uffd region0 region1 fuel s).trace →
      [Effect.store (ptrAdd region0 (faultOffset region1 a))
          (pageChar kPageSize (faultOffset region1 a)),
        Effect.uffdioContinue fd a len ret] <:+:
        (FaultHandlerLoop P hdr kPageSize uffd region0 region1 fuel s).trace := by
  intro fuel
  induction fuel with
  | zero =>
    intro s h
    simp [FaultHandlerLoop, pure_eq, Step.trace] at h
  | succ k ih =>
    intro s h
    have hit := FaultHandlerIteration_store_before_continue P hdr kPageSize uffd region0
      region1 s fd a len ret
    simp only [FaultHandlerLoop, bind_eq] at h ⊢
    cases hx : FaultHandlerIteration P hdr kPageSize uffd region0 region1 s with
    | ok tr u s1 =>
      rw [hx] at hit
      simp only [hx, Step.trace_after, List.mem_append] at h ⊢
      rcases h with h | h
      · exact (hit h).trans (List.infix_append' [] tr _)
      · exact (ih s1 h).trans (List.suffix_append tr _).isInfix
    | halt tr hh s1 =>
      rw [hx] at hit
      simp only [hx] at h ⊢
      exact hit h

theorem FaultHandlerThread_eq_loop_or_halt {σ : Type} (P : Platform σ) (hdr : UffdHeader)
    (kPageSize : Nat) (init : Init) (fuel : Nat) (s : σ) :
    FaultHandlerThread P hdr kPageSize init fuel s =
      FaultHandlerLoop P hdr kPageSize init.uffd init.region0 init.region1 fuel s ∨
    FaultHandlerThread P hdr kPageSize init fuel s = .halt [] (.exited 1) s := by
  by_cases h1 : init.uffd = -1
  · right
    simp [FaultHandlerThread, bind_eq, CHECK_NE, __LCHECK, h1]
  by_cases h2 : init.region0 = nullptr
  · right
    simp [FaultHandlerThread, bind_eq, CHECK_NE, __LCHECK, h1, h2, Step.after]
  by_cases h3 : init.region1 = nullptr
  · right
    simp [FaultHandlerThread, bind_eq, CHECK_NE, __LCHECK, h1, h2, h3, Step.after]
  by_cases h4 : init.region0 = init.region1
  · right
    simp [FaultHandlerThread, bind_eq, CHECK_NE, __LCHECK, h1, h2, h3, h4, Step.after]
  left
  simp [FaultHandlerThread, bind_eq, CHECK_NE, __LCHECK, h1, h2, h3, h4, Step.after_nil]

/-- C3.  In the trace of the resolver thread, run for any number of passes,
every completion directive for an address `a` comes directly after the store
to `region0 + (a - region1)`, the page of the populated mapping at the same
offset.  In the trace of `main`, every registration request and the creation
of the resolver thread come after the four calls that set up the store and its
two mappings and after all `kNumPages` stores of `'a'` to the pages of
`region0`, none of which is a registration or a thread creation. -/
theorem population_precedes_completion {σ : Type} (P : Platform σ) (hdr : UffdHeader)
    (kPageSize : Nat) :
    (∀ (init : Init) (fuel : Nat) (s : σ) (fd : Int) (a len : Nat) (ret : Int),
      Effect.uffdioContinue fd a len ret ∈
        (FaultHandlerThread P hdr kPageSize init fuel s).trace →
      [Effect.store (ptrAdd init.region0 (faultOffset init.region1 a))
          (pageChar kPageSize (faultOffset init.region1 a)),
        Effect.uffdioContinue fd a len ret] <:+:
        (FaultHandlerThread P hdr kPageSize init fuel s).trace) ∧
    (∀ (kNumPages : Nat) (s : σ) (e : Effect),
      e ∈ (main P hdr kPageSize kNumPages s).trace →
      e.isRegister = true ∨ e.isThreadCreate = true →
      ∃ fd r0 r1 post,
        (main P hdr kPageSize kNumPages s).trace =
          [Effect.memfd_create fd,
            Effect.ftruncate fd ((kPageSize * kNumPages) % 2 ^ 64) 0,
            Effect.mmap ((kPageSize * kNumPages) % 2 ^ 64) fd r0,
            Effect.mmap ((kPageSize * kNumPages) % 2 ^ 64) fd r1] ++
          (List.range' 0 kNumPages).map
            (fun j => Effect.store (ptrAdd r0 (pageOffset kPageSize j)) 97) ++ post ∧
        e ∈ post) := by
  constructor
  · intro init fuel s fd a len ret h
    rcases FaultHandlerThread_eq_loop_or_halt P hdr kPageSize init fuel s with he | he
    · rw [he] at h ⊢
      exact FaultHandlerLoop_store_before_continue P hdr kPageSize _ _ _ fd a len ret fuel s h
    · rw [he] at h
      simp [Step.trace] at h
  · intro kNumPages s e he hk
    rcases main_trace_shape P hdr kPageSize kNumPages s with
      ⟨-, hall⟩ | ⟨fd, r0, r1, uffd, aret, aapi, afeat, ret, ioctls, rest, -, htr, -⟩
    · have := hall e he
      rcases hk with hk | hk
      · rw [this.1] at hk; exact absurd hk (by simp)
      · rw [this.2] at hk; exact absurd hk (by simp)
    · refine ⟨fd, r0, r1,
        [Effect.userfaultfd (hdr.O_CLOEXEC ||| hdr.O_NONBLOCK ||| hdr.UFFD_USER_MODE_ONLY) uffd,
          Effect.uffdioApi uffd hdr.UFFD_API hdr.UFFD_FEATURE_MINOR_SHMEM aret aapi afeat,
          Effect.uffdioRegister uffd r1 ((kPageSize * kNumPages) % 2 ^ 64)
            hdr.UFFDIO_REGISTER_MODE_MINOR ret ioctls] ++ rest, ?_, ?_⟩
      · rw [htr, List.append_assoc]
      · rw [htr] at he
        simp only [List.mem_append, List.mem_cons, List.mem_map, List.not_mem_nil,
          or_false] at he ⊢
        rcases he with (((rfl | rfl | rfl | rfl) | ⟨j, -, rfl⟩) | he) | he
        · simp [Effect.isRegister, Effect.isThreadCreate] at hk
        · simp [Effect.isRegister, Effect.isThreadCreate] at hk
        · simp [Effect.isRegister, Effect.isThreadCreate] at hk
        · simp [Effect.isRegister, Effect.isThreadCreate] at hk
        · simp [Effect.isRegister, Effect.isThreadCreate] at hk
        · exact Or.inl he
        · exact Or.inr he


/-! ## The registration request (C7) -/

/-- C7.  The registration requests in the trace of `main` are either none (the
run stopped before the registration) or exactly one, which asks for the range
starting at `r1`, the address the second `mmap` returned (`region1`), of length
`kPageSize * kNumPages` (the size given to `Shmem`, to `ftruncate` and to both
`mmap` calls), in mode `UFFDIO_REGISTER_MODE_MINOR`.  Its start differs from
`r0`, the address of the first mapping (`region0`), and when the two mappings do
not overlap no address of the first one lies in the registered range.  A run in
which `main` returns contains exactly one registration request. -/
theorem registration_is_exactly_region1 {σ : Type} (P : Platform σ) (hdr : UffdHeader)
    (kPageSize kNumPages : Nat) (s : σ) :
    ((main P hdr kPageSize kNumPages s).trace.filter Effect.isRegister = [] ∨
      ∃ fd r0 r1 uffd ret ioctls pre post,
        (main P hdr kPageSize kNumPages s).trace =
          [Effect.memfd_create fd,
            Effect.ftruncate fd ((kPageSize * kNumPages) % 2 ^ 64) 0,
            Effect.mmap ((kPageSize * kNumPages) % 2 ^ 64) fd r0,
            Effect.mmap ((kPageSize * kNumPages) % 2 ^ 64) fd r1] ++ pre ++
          [Effect.uffdioRegister uffd r1 ((kPageSize * kNumPages) % 2 ^ 64)
            hdr.UFFDIO_REGISTER_MODE_MINOR ret ioctls] ++ post ∧
        (main P hdr kPageSize kNumPages s).trace.filter Effect.isRegister =
          [Effect.uffdioRegister uffd r1 ((kPageSize * kNumPages) % 2 ^ 64)
            hdr.UFFDIO_REGISTER_MODE_MINOR ret ioctls] ∧
        r1 ≠ r0 ∧
        (r0 + (kPageSize * kNumPages) % 2 ^ 64 ≤ r1 ∨
            r1 + (kPageSize * kNumPages) % 2 ^ 64 ≤ r0 →
          ∀ a, r0 ≤ a → a < r0 + (kPageSize * kNumPages) % 2 ^ 64 →
            ¬ (r1 ≤ a ∧ a < r1 + (kPageSize * kNumPages) % 2 ^ 64))) ∧
    ((main P hdr kPageSize kNumPages s).halted = none →
      ((main P hdr kPageSize kNumPages s).trace.filter Effect.isRegister).length = 1) := by
  have hfilter : ∀ (l : List Effect), (∀ e ∈ l, e.isRegister = false) →
      l.filter Effect.isRegister = [] := by
    intro l hl
    exact List.filter_eq_nil_iff.mpr (fun e he => by simp [hl e he])
  rcases main_trace_shape P hdr kPageSize kNumPages s with
    ⟨hh, hall⟩ | ⟨fd, r0, r1, uffd, aret, aapi, afeat, ret, ioctls, rest, h01, htr, hrest⟩
  · refine ⟨Or.inl (hfilter _ (fun e he => (hall e he).1)), fun h => absurd h hh⟩
  · have hf : (main P hdr kPageSize kNumPages s).trace.filter Effect.isRegister =
        [Effect.uffdioRegister uffd r1 ((kPageSize * kNumPages) % 2 ^ 64)
          hdr.UFFDIO_REGISTER_MODE_MINOR ret ioctls] := by
      rw [htr]
      simp only [List.filter_append]
      rw [hfilter rest (fun e he => (hrest e he).1)]
      rw [hfilter ((List.range' 0 kNumPages).map
        (fun j => Effect.store (ptrAdd r0 (pageOffset kPageSize j)) 97))
        (by intro e he; simp only [List.mem_map] at he; obtain ⟨j, -, rfl⟩ := he; rfl)]
      simp [List.filter, Effect.isRegister]
    refine ⟨Or.inr ⟨fd, r0, r1, uffd, ret, ioctls,
      (List.range' 0 kNumPages).map
        (fun j => Effect.store (ptrAdd r0 (pageOffset kPageSize j)) 97) ++
      [Effect.userfaultfd (hdr.O_CLOEXEC ||| hdr.O_NONBLOCK ||| hdr.UFFD_USER_MODE_ONLY) uffd,
        Effect.uffdioApi uffd hdr.UFFD_API hdr.UFFD_FEATURE_MINOR_SHMEM aret aapi afeat],
      rest, ?_, hf, fun h => h01 h.symm, ?_⟩, fun _ => by rw [hf]; rfl⟩
    · rw [htr]
      simp
    · intro hdis a h1 h2
      omega


/-! ## Running on the machine -/

/-- A pass that gets a full page-fault message with a page-aligned offset and
whose store completes: it issues the completion directive and ends according to
its result. -/
theorem FaultHandlerIteration_handled {σ : Type} (P : Platform σ) (hdr : UffdHeader)
    (kPageSize : Nat) (uffd : Int) (region0 region1 : Nat) (s s1 s2 s3 : σ) (n ret : Int)
    (msg : UffdMsg)
    (hpoll : P.poll uffd s = (some n, s1)) (hn : n ≠ -1)
    (hread : P.read uffd hdr.sizeof_uffd_msg s1 = ((ret, msg), s2))
    (hret : toU64 ret = hdr.sizeof_uffd_msg)
    (hev : msg.event = hdr.UFFD_EVENT_PAGEFAULT)
    (hoff : faultOffset region1 msg.address % kPageSize = 0)
    (hst : P.store (ptrAdd region0 (faultOffset region1 msg.address))
      (pageChar kPageSize (faultOffset region1 msg.address)) s2 = (some (), s3)) :
    FaultHandlerIteration P hdr kPageSize uffd region0 region1 s =
      if (P.uffdioContinue uffd msg.address kPageSize s3).1 = -1 then
        .halt [Effect.poll uffd n, Effect.read uffd hdr.sizeof_uffd_msg ret msg,
          Effect.store (ptrAdd region0 (faultOffset region1 msg.address))
            (pageChar kPageSize (faultOffset region1 msg.address)),
          Effect.uffdioContinue uffd msg.address kPageSize
            (P.uffdioContinue uffd msg.address kPageSize s3).1]
          (.exited 1) (P.uffdioContinue uffd msg.address kPageSize s3).2
      else
        .ok [Effect.poll uffd n, Effect.read uffd hdr.sizeof_uffd_msg ret msg,
          Effect.store (ptrAdd region0 (faultOffset region1 msg.address))
            (pageChar kPageSize (faultOffset region1 msg.address)),
          Effect.uffdioContinue uffd msg.address kPageSize
            (P.uffdioContinue uffd msg.address kPageSize s3).1]
          () (P.uffdioContinue uffd msg.address kPageSize s3).2 := by
  rw [FaultHandlerIteration_eq]
  simp only [hpoll, hread, hst, if_neg hn]
  rw [if_neg (by simp [hret, hev, hoff])]

theorem lookup_first (w : World) (r0 r1 size a : Nat) (hmaps : w.maps = [(r0, size), (r1, size)])
    (h1 : r0 ≤ a) (h2 : a < r0 + size) : w.lookup a = some (r0, size) := by
  simp [World.lookup, hmaps, List.find?, h1, h2]

theorem lookup_second (w : World) (r0 r1 size a : Nat)
    (hmaps : w.maps = [(r0, size), (r1, size)])
    (hdis : r0 + size ≤ r1 ∨ r1 + size ≤ r0)
    (h1 : r1 ≤ a) (h2 : a < r1 + size) : w.lookup a = some (r1, size) := by
  have h3 : ¬ (r0 ≤ a ∧ a < r0 + size) := by omega
  simp [World.lookup, hmaps, List.find?, h1, h2, h3]

theorem toU64_natCast (n : Nat) (h : n < 2 ^ 64) : toU64 (n : Int) = n := by
  unfold toU64
  omega


theorem resolverSide_poll (m : Machine) (w : World) (fd : Int) (msg : UffdMsg)
    (rest : List UffdMsg) (hq : w.queue = msg :: rest) :
    (resolverSide m).poll fd w = (some 1, w) := by
  simp [resolverSide, Kernel.poll, hq]

theorem resolverSide_read (m : Machine) (w : World) (msg : UffdMsg)
    (rest : List UffdMsg) (hq : w.queue = msg :: rest) :
    (resolverSide m).read m.uffd m.hdr.sizeof_uffd_msg w =
      (((m.hdr.sizeof_uffd_msg : Int), msg), { w with queue := rest }) := by
  simp [resolverSide, Kernel.read, hq]

/-- A store by the resolver to a mapped address outside the registered range
completes and writes one byte of the file. -/
theorem resolverSide_store_unregistered (m : Machine) (w : World) (a b base len : Nat)
    (hl : w.lookup a = some (base, len)) (hr : w.inRegistered a = false) :
    ((resolverSide m).store a b w).1 = some () ∧
    ((resolverSide m).store a b w).2.file = setAt w.file (a - base) b := by
  by_cases hi : w.installed (a - a % m.kPageSize) = true <;>
    simp [resolverSide, Kernel.storeAlone, Kernel.touch, hl, hr, hi]

theorem uffdioContinue_file (m : Machine) (fd : Int) (a n : Nat) (w : World) :
    ((resolverSide m).uffdioContinue fd a n w).2.file = w.file := by
  simp only [resolverSide, Kernel.uffdioContinue]
  split
  · rfl
  · split <;> rfl

theorem Step.state_ite {σ α : Type} (c : Prop) [Decidable c] (t1 t2 : List Effect) (h : Halt)
    (a : α) (s : σ) : (if c then Step.halt t1 h s else Step.ok t2 a s).state = s := by
  split <;> rfl

theorem touch_ready_maps (m : Machine) (w w1 : World) (a offset : Nat)
    (h : Kernel.touch m w a = .ready offset w1) : w1.maps = w.maps := by
  unfold Kernel.touch at h
  split at h
  · simp at h
  · simp only at h
    split_ifs at h <;> simp at h <;> (obtain ⟨_, rfl⟩ := h; rfl)

theorem resolverSide_store_maps (m : Machine) (w : World) (a b : Nat) :
    ((resolverSide m).store a b w).2.maps = w.maps := by
  simp only [resolverSide, Kernel.storeAlone]
  cases h : Kernel.touch m w a with
  | ready offset w1 => simp [touch_ready_maps m w w1 a offset h]
  | userfault msg => rfl
  | segv => rfl

theorem uffdioContinue_maps (m : Machine) (fd : Int) (a n : Nat) (w : World) :
    ((resolverSide m).uffdioContinue fd a n w).2.maps = w.maps := by
  simp only [resolverSide, Kernel.uffdioContinue]
  split
  · rfl
  · split <;> rfl

theorem pageChar_eq (kPageSize offset : Nat) :
    pageChar kPageSize offset = (99 + offset / kPageSize) % 256 := by
  unfold pageChar toChar
  omega

/-! ## One handled event changes one byte of the store (C10) -/

/-- C10.  On the machine, with the store mapped at `region0` and `region1`
(two ranges of `size` bytes that do not overlap) and `region0` not registered:
a pass of the resolver that reads a page-fault event whose offset
`o = address - region1` is page-aligned and less than `size` leaves the file with
byte `o` (byte 0 of page `o / kPageSize`) equal to `'c' + o / kPageSize` as a
`char`, that is `(99 + o / kPageSize) % 256`, whatever it was before, and with
every other byte unchanged; and after the pass either mapping shows, at every
offset below `size`, the byte of the file at that offset. -/
theorem resolver_changes_one_byte (m : Machine) (w : World) (init : Init) (msg : UffdMsg)
    (rest : List UffdMsg) (size : Nat)
    (hq : w.queue = msg :: rest)
    (hev : msg.event = m.hdr.UFFD_EVENT_PAGEFAULT)
    (hfd : init.uffd = m.uffd)
    (hsz : m.hdr.sizeof_uffd_msg < 2 ^ 64)
    (hmaps : w.maps = [(init.region0, size), (init.region1, size)])
    (hdis : init.region0 + size ≤ init.region1 ∨ init.region1 + size ≤ init.region0)
    (h0 : init.region0 + size ≤ 2 ^ 64)
    (hnr : ∀ a, init.region0 ≤ a → a < init.region0 + size → w.inRegistered a = false)
    (halign : faultOffset init.region1 msg.address % m.kPageSize = 0)
    (hin : faultOffset init.region1 msg.address < size) :
    (∀ k, (FaultHandlerIteration (resolverSide m) m.hdr m.kPageSize init.uffd init.region0
        init.region1 w).state.file k =
      if k = faultOffset init.region1 msg.address then
        (99 + faultOffset init.region1 msg.address / m.kPageSize) % 256
      else w.file k) ∧
    (∀ k, k < size →
      (FaultHandlerIteration (resolverSide m) m.hdr m.kPageSize init.uffd init.region0
          init.region1 w).state.peek (init.region0 + k) =
        some ((FaultHandlerIteration (resolverSide m) m.hdr m.kPageSize init.uffd init.region0
          init.region1 w).state.file k) ∧
      (FaultHandlerIteration (resolverSide m) m.hdr m.kPageSize init.uffd init.region0
          init.region1 w).state.peek (init.region1 + k) =
        some ((FaultHandlerIteration (resolverSide m) m.hdr m.kPageSize init.uffd init.region0
          init.region1 w).state.file k)) := by
  have hp : ptrAdd init.region0 (faultOffset init.region1 msg.address) =
      init.region0 + faultOffset init.region1 msg.address := by
    unfold ptrAdd
    omega
  have hpoll := resolverSide_poll m w m.uffd msg rest hq
  have hread := resolverSide_read m w msg rest hq
  have hl : ({ w with queue := rest } : World).lookup
      (init.region0 + faultOffset init.region1 msg.address) = some (init.region0, size) :=
    lookup_first _ init.region0 init.region1 size _ hmaps (by omega) (by omega)
  have hr : ({ w with queue := rest } : World).inRegistered
      (init.region0 + faultOffset init.region1 msg.address) = false :=
    hnr (init.region0 + faultOffset init.region1 msg.address) (by omega) (by omega)
  obtain ⟨hs1, hs2⟩ := resolverSide_store_unregistered m _
    (init.region0 + faultOffset init.region1 msg.address)
    (pageChar m.kPageSize (faultOffset init.region1 msg.address)) init.region0 size hl hr
  have hsm := resolverSide_store_maps m ({ w with queue := rest } : World)
    (init.region0 + faultOffset init.region1 msg.address)
    (pageChar m.kPageSize (faultOffset init.region1 msg.address))
  have hiter := FaultHandlerIteration_handled (resolverSide m) m.hdr m.kPageSize m.uffd
    init.region0 init.region1 w _ _ _ 1 _ msg hpoll (by decide) hread
    (toU64_natCast _ hsz) hev halign
    (by rw [hp]; exact Prod.ext hs1 rfl)
  rw [hfd, hiter, Step.state_ite]
  have hfile : ∀ k, ((resolverSide m).uffdioContinue m.uffd msg.address m.kPageSize
      ((resolverSide m).store (init.region0 + faultOffset init.region1 msg.address)
        (pageChar m.kPageSize (faultOffset init.region1 msg.address))
        ({ w with queue := rest } : World)).2).2.file k =
      if k = faultOffset init.region1 msg.address then
        (99 + faultOffset init.region1 msg.address / m.kPageSize) % 256
      else w.file k := by
    intro k
    rw [uffdioContinue_file, hs2, pageChar_eq]
    simp [setAt]
  have hmaps2 : ((resolverSide m).uffdioContinue m.uffd msg.address m.kPageSize
      ((resolverSide m).store (init.region0 + faultOffset init.region1 msg.address)
        (pageChar m.kPageSize (faultOffset init.region1 msg.address))
        ({ w with queue := rest } : World)).2).2.maps =
      [(init.region0, size), (init.region1, size)] := by
    rw [uffdioContinue_maps, hsm]
    exact hmaps
  refine ⟨hfile, ?_⟩
  intro k hk
  constructor
  · simp [World.peek, lookup_first _ init.region0 init.region1 size (init.region0 + k) hmaps2
      (by omega) (by omega)]
  · simp [World.peek, lookup_second _ init.region0 init.region1 size (init.region1 + k) hmaps2
      hdis (by omega) (by omega)]


/-! ## The read loop on the machine -/

theorem faultOffset_of_le (region1 address : Nat) (h1 : region1 ≤ address)
    (h2 : address < 2 ^ 64) : faultOffset region1 address = address - region1 := by
  unfold faultOffset toU64
  omega

theorem load_served (m : Machine) (N i : Nat) (w : World) (hm : m.Sound N)
    (hr : Ready m N i w) (hi : i < N) :
    ∃ w1, Kernel.load m (m.region1 + i * m.kPageSize) w = (some ((99 + i) % 256), w1) ∧
      Ready m N (i + 1) w1 := by
  have hps := hm.page_pos
  have hlt : i * m.kPageSize < m.kPageSize * N := by
    rw [Nat.mul_comm m.kPageSize N]
    exact Nat.mul_lt_mul_of_pos_right hi hps
  have hmod : (m.region1 + i * m.kPageSize) % m.kPageSize = 0 := by
    rw [Nat.add_mul_mod_self_right]
    exact hm.region1_aligned
  have hmod0 : (m.region0 + i * m.kPageSize) % m.kPageSize = 0 := by
    rw [Nat.add_mul_mod_self_right]
    exact hm.region0_aligned
  have hdiv : i * m.kPageSize / m.kPageSize = i := Nat.mul_div_cancel i hps
  have h1 := hm.region1_fits
  have h0 := hm.region0_fits
  have hdis := hm.disjoint
  have hlook := lookup_second w m.region0 m.region1 (m.kPageSize * N)
    (m.region1 + i * m.kPageSize) hr.maps hdis (by omega) (by omega)
  have hfo : faultOffset m.region1 (m.region1 + i * m.kPageSize) = i * m.kPageSize := by
    rw [faultOffset_of_le _ _ (by omega) (by omega)]
    omega
  have hpa : ptrAdd m.region0 (i * m.kPageSize) = m.region0 + i * m.kPageSize := by
    unfold ptrAdd
    omega
  have hinreg : w.inRegistered (m.region1 + i * m.kPageSize) = true := by
    simp [World.inRegistered, hr.registered, hlt]
  have htouch : Kernel.touch m w (m.region1 + i * m.kPageSize) =
      .userfault ⟨m.hdr.UFFD_EVENT_PAGEFAULT, 4, m.region1 + i * m.kPageSize⟩ := by
    simp [Kernel.touch, hlook, hmod, hr.missing1 i (le_refl i) hi, hinreg, hdiv,
      hr.cached i hi]
  have hl1 : ∀ w1 : World, w1.maps = w.maps →
      w1.lookup (m.region1 + i * m.kPageSize) = some (m.region1, m.kPageSize * N) := by
    intro w1 h
    exact lookup_second w1 m.region0 m.region1 (m.kPageSize * N) _ (h.trans hr.maps) hdis
      (by omega) (by omega)
  have hl0 : ∀ w1 : World, w1.maps = w.maps →
      w1.lookup (m.region0 + i * m.kPageSize) = some (m.region0, m.kPageSize * N) := by
    intro w1 h
    exact lookup_first w1 m.region0 m.region1 (m.kPageSize * N) _ (h.trans hr.maps)
      (by omega) (by omega)
  have hreg1 : ∀ w1 : World, w1.registered = w.registered →
      w1.inRegistered (m.region1 + i * m.kPageSize) = true := by
    intro w1 h
    simp [World.inRegistered, h, hr.registered, hlt]
  have hsub : m.region1 + i * m.kPageSize - m.region1 = i * m.kPageSize := by omega
  have hsub0 : m.region0 + i * m.kPageSize - m.region0 = i * m.kPageSize := by omega
  have hne : m.region0 + i * m.kPageSize ≠ m.region1 + i * m.kPageSize := by omega
  have hserve : serveFault m ⟨m.hdr.UFFD_EVENT_PAGEFAULT, 4, m.region1 + i * m.kPageSize⟩ w =
      (true, { w with
        file := setAt w.file (i * m.kPageSize) ((99 + i) % 256)
        installed := setAt w.installed (m.region1 + i * m.kPageSize) true }) := by
    simp [serveFault, hr.resolver, hr.queue, FaultHandlerIteration_eq, resolverSide,
      Kernel.poll, Kernel.read, toU64_natCast _ hm.msg_size, hfo, hpa, Kernel.storeAlone,
      Kernel.touch, hl0, hl1, hreg1, hmod, hmod0, hr.present0 i hi, hr.cached i hi,
      hr.missing1 i (le_refl i) hi, Kernel.uffdioContinue, hsub, hsub0, hdiv, pageChar_eq,
      setAt]
  refine ⟨{ w with
      file := setAt w.file (i * m.kPageSize) ((99 + i) % 256)
      installed := setAt w.installed (m.region1 + i * m.kPageSize) true }, ?_, ?_⟩
  · simp only [Kernel.load, servedTouch, hr.exitStatus, Option.isSome_none, Bool.false_eq_true,
      if_false, htouch, hserve]
    simp [Kernel.touch, hl1, hmod, hsub, hr.exitStatus, setAt]
  · refine ⟨hr.maps, hr.registered, hr.resolver, hr.exitStatus, hr.queue, hr.cached, ?_, ?_⟩
    · intro j hj
      have : m.region0 + j * m.kPageSize ≠ m.region1 + i * m.kPageSize := by
        have hj' : j * m.kPageSize < m.kPageSize * N := by
          rw [Nat.mul_comm m.kPageSize N]
          exact Nat.mul_lt_mul_of_pos_right hj hps
        omega
      simp only [setAt, if_neg this]
      exact hr.present0 j hj
    · intro j hij hj
      have : m.region1 + j * m.kPageSize ≠ m.region1 + i * m.kPageSize := by
        have : i * m.kPageSize < j * m.kPageSize :=
          Nat.mul_lt_mul_of_pos_right (by omega) hps
        omega
      simp only [setAt, if_neg this]
      exact hr.missing1 j (by omega) hj


theorem selfCheck_iff (i : Nat) (h : i < 2 ^ 63) :
    charToU64 ((99 + i) % 256) = (99 + i) % 2 ^ 64 ↔ i ≤ 28 := by
  unfold charToU64 toU64
  split_ifs <;> omega

theorem page_address (base kPageSize N i : Nat) (hi : i < N)
    (hfit : base + kPageSize * N < 2 ^ 64) :
    ptrAdd base (pageOffset kPageSize i) = base + i * kPageSize := by
  have : i * kPageSize ≤ kPageSize * N := by
    rw [Nat.mul_comm kPageSize N]
    exact Nat.mul_le_mul_right _ (Nat.le_of_lt hi)
  unfold ptrAdd pageOffset
  omega

theorem readPages_ok (m : Machine) (N : Nat) (hm : m.Sound N) :
    ∀ (n i : Nat) (w : World), Ready m N i w → i + n ≤ N → i + n ≤ 29 →
      ∃ w1, readPages (mainSide m) m.kPageSize m.region1 i n w =
          .ok ((List.range' i n).map
            (fun j => Effect.load (m.region1 + j * m.kPageSize) (99 + j))) () w1 ∧
        Ready m N (i + n) w1 := by
  intro n
  induction n with
  | zero =>
    intro i w hr _ _
    exact ⟨w, rfl, hr⟩
  | succ k ih =>
    intro i w hr hN h29
    obtain ⟨w1, hload, hr1⟩ := load_served m N i w hm hr (by omega)
    obtain ⟨w2, hrest, hr2⟩ := ih (i + 1) w1 hr1 (by omega) (by omega)
    refine ⟨w2, ?_, by rw [show i + (k + 1) = i + 1 + k by omega]; exact hr2⟩
    have hmod : (99 + i) % 256 = 99 + i := by omega
    have hchk : charToU64 (99 + i) = (99 + i) % 2 ^ 64 := by
      have := (selfCheck_iff i (by omega)).mpr (by omega)
      rwa [hmod] at this
    rw [hmod] at hload
    simp only [readPages, bind_eq, callBlocking, CHECK_EQ, __LCHECK,
      page_address m.region1 m.kPageSize N i (by omega) hm.region1_fits]
    have hl : (mainSide m).load (m.region1 + i * m.kPageSize) w = (some (99 + i), w1) := hload
    simp only [hl, hchk, decide_True, if_true, Step.after_nil, hrest]
    simp [Step.after, List.range'_succ]

theorem readPages_fail (m : Machine) (N : Nat) (hm : m.Sound N) (w : World)
    (hr : Ready m N 29 w) (hN : 29 < N) (n : Nat) :
    ∃ w1, readPages (mainSide m) m.kPageSize m.region1 29 (n + 1) w =
        .halt [Effect.load (m.region1 + 29 * m.kPageSize) 128] (.exited 1) w1 ∧
      w1.exitStatus = none := by
  obtain ⟨w1, hload, hr1⟩ := load_served m N 29 w hm hr hN
  refine ⟨w1, ?_, hr1.exitStatus⟩
  have hl : (mainSide m).load (m.region1 + 29 * m.kPageSize) w = (some 128, w1) := hload
  have hchk : ¬ charToU64 128 = 128 := by
    have := (selfCheck_iff 29 (by norm_num)).not.mpr (by omega)
    simpa using this
  simp only [readPages, bind_eq, callBlocking, CHECK_EQ, __LCHECK,
    page_address m.region1 m.kPageSize N 29 hN hm.region1_fits, hl]
  simp [hchk, Step.after]


/-! ## The whole program on the machine -/

theorem store_touched (m : Machine) (N i : Nat) (w : World) (hm : m.Sound N)
    (ht : Touched m N i w) (hi : i < N) :
    ∃ w1, Kernel.store m (m.region0 + i * m.kPageSize) 97 w = (some (), w1) ∧
      Touched m N (i + 1) w1 := by
  have hps := hm.page_pos
  have hlt : i * m.kPageSize < m.kPageSize * N := by
    rw [Nat.mul_comm m.kPageSize N]
    exact Nat.mul_lt_mul_of_pos_right hi hps
  have hmod0 : (m.region0 + i * m.kPageSize) % m.kPageSize = 0 := by
    rw [Nat.add_mul_mod_self_right]
    exact hm.region0_aligned
  have hdiv : i * m.kPageSize / m.kPageSize = i := Nat.mul_div_cancel i hps
  have h0 := hm.region0_fits
  have hdis := hm.disjoint
  have hlook := lookup_first w m.region0 m.region1 (m.kPageSize * N)
    (m.region0 + i * m.kPageSize) ht.maps (by omega) (by omega)
  have hsub0 : m.region0 + i * m.kPageSize - m.region0 = i * m.kPageSize := by omega
  have hreg : w.inRegistered (m.region0 + i * m.kPageSize) = false := by
    simp [World.inRegistered, ht.registered]
  have hother : ∀ j, j < N → m.region1 + j * m.kPageSize ≠ m.region0 + i * m.kPageSize := by
    intro j hj
    have hj' : j * m.kPageSize < m.kPageSize * N := by
      rw [Nat.mul_comm m.kPageSize N]
      exact Nat.mul_lt_mul_of_pos_right hj hps
    omega
  have hinst := ht.missing0 i (le_refl i) hi
  refine ⟨{ w with
      file := setAt w.file (i * m.kPageSize) 97
      cached := setAt w.cached i true
      installed := setAt w.installed (m.region0 + i * m.kPageSize) true }, ?_, ?_⟩
  · simp [Kernel.store, servedTouch, ht.exitStatus, Kernel.touch, hlook, hmod0, hinst, hsub0,
      hreg, hdiv]
  · refine ⟨ht.maps, ht.registered, ht.resolver, ht.exitStatus, ht.queue, ?_, ?_, ?_, ?_⟩
    · intro j hj
      simp only [setAt]
      split_ifs with h
      · rfl
      · exact ht.cached j (by omega)
    · intro j hj
      simp only [setAt]
      split_ifs with h
      · rfl
      · apply ht.present0 j
        rcases Nat.lt_succ_iff_lt_or_eq.mp hj with h' | h'
        · exact h'
        · subst h'; exact absurd rfl h
    · intro j hij hj
      have : m.region0 + j * m.kPageSize ≠ m.region0 + i * m.kPageSize := by
        have : i * m.kPageSize < j * m.kPageSize :=
          Nat.mul_lt_mul_of_pos_right (by omega) hps
        omega
      simp only [setAt, if_neg this]
      exact ht.missing0 j (by omega) hj
    · intro j hj
      simp only [setAt, if_neg (hother j hj)]
      exact ht.missing1 j hj

theorem touchPages_ok (m : Machine) (N : Nat) (hm : m.Sound N) :
    ∀ (n i : Nat) (w : World), Touched m N i w → i + n ≤ N →
      ∃ w1, touchPages (mainSide m) m.kPageSize m.region0 i n w =
          .ok ((List.range' i n).map
            (fun j => Effect.store (ptrAdd m.region0 (pageOffset m.kPageSize j)) 97)) () w1 ∧
        Touched m N (i + n) w1 := by
  intro n
  induction n with
  | zero =>
    intro i w ht _
    exact ⟨w, rfl, ht⟩
  | succ k ih =>
    intro i w ht hN
    obtain ⟨w1, hst, ht1⟩ := store_touched m N i w hm ht (by omega)
    obtain ⟨w2, hrest, ht2⟩ := ih (i + 1) w1 ht1 (by omega)
    refine ⟨w2, ?_, by rw [show i + (k + 1) = i + 1 + k by omega]; exact ht2⟩
    have hs : (mainSide m).store (ptrAdd m.region0 (pageOffset m.kPageSize i)) 97 w =
        (some (), w1) := by
      rw [page_address m.region0 m.kPageSize N i (by omega) hm.region0_fits]
      exact hst
    simp only [touchPages, bind_eq, callBlocking, hs, hrest]
    simp [Step.after, List.range'_succ]

/-- The machine state after the registration and the creation of the resolver
thread. -/
theorem ready_of_touched (m : Machine) (N : Nat) (w : World) (ht : Touched m N N w) :
    Ready m N 0 { w with
      registered := some (m.region1, m.kPageSize * N)
      resolver := some { uffd := m.uffd, region0 := m.region0, region1 := m.region1 } } :=
  ⟨ht.maps, rfl, rfl, ht.exitStatus, ht.queue, ht.cached, ht.present0,
    fun j _ hj => ht.missing1 j hj⟩


theorem Step.after_after {σ α : Type} (t1 t2 : List Effect) (x : Step σ α) :
    (x.after t2).after t1 = x.after (t1 ++ t2) := by
  cases x <;> simp [Step.after]

theorem readPages_split {σ : Type} (P : Platform σ) (kPageSize region1 : Nat) :
    ∀ (n1 n2 i : Nat) (s : σ),
      readPages P kPageSize region1 i (n1 + n2) s =
        match readPages P kPageSize region1 i n1 s with
        | .ok tr _ s1 => (readPages P kPageSize region1 (i + n1) n2 s1).after tr
        | .halt tr h s1 => .halt tr h s1 := by
  intro n1
  induction n1 with
  | zero =>
    intro n2 i s
    simp [readPages, pure_eq, Step.after_nil]
  | succ k ih =>
    intro n2 i s
    rw [show k + 1 + n2 = (k + n2) + 1 by omega]
    simp only [readPages, bind_eq]
    cases hx : callBlocking (P.load (ptrAdd region1 (pageOffset kPageSize i)))
        (Effect.load (ptrAdd region1 (pageOffset kPageSize i))) s with
    | halt tr h s1 => rfl
    | ok tr v s1 =>
      simp only
      cases hc : CHECK_EQ (charToU64 v) ((99 + i) % 2 ^ 64) s1 with
      | halt tr2 h s2 => rfl
      | ok tr2 u s2 =>
        simp only [ih n2 (i + 1) s2]
        cases hr : readPages P kPageSize region1 (i + 1) k s2 with
        | halt tr3 h s3 => rfl
        | ok tr3 u3 s3 =>
          simp only [Step.after_after, Step.after]
          rw [show i + 1 + k = i + (k + 1) by omega]
          cases readPages P kPageSize region1 (i + (k + 1)) n2 s3 <;>
            simp [Step.after, List.append_assoc]

theorem touchTrace_eq (m : Machine) (N : Nat) (hm : m.Sound N) :
    (List.range' 0 N).map
        (fun j => Effect.store (ptrAdd m.region0 (pageOffset m.kPageSize j)) 97) =
      (List.range' 0 N).map (fun j => Effect.store (m.region0 + j * m.kPageSize) 97) := by
  apply List.map_congr_left
  intro j hj
  rw [List.mem_range'_1] at hj
  rw [page_address m.region0 m.kPageSize N j (by omega) hm.region0_fits]

theorem runProgram_result (m : Machine) (N : Nat) (hm : m.Sound N) (hN : 1 ≤ N) :
    (N ≤ 29 → ∃ w, runProgram m N = .ok (fullTrace m N) 0 w ∧ w.exitStatus = none) ∧
    (29 < N → ∃ tr w, runProgram m N = .halt tr (.exited 1) w ∧ w.exitStatus = none) := by
  have hps := hm.page_pos
  have hpos : 0 < m.kPageSize * N := Nat.mul_pos hps hN
  have h0 := hm.region0_fits
  have h1 := hm.region1_fits
  have hdis := hm.disjoint
  have hsize : (m.kPageSize * N) % 2 ^ 64 = m.kPageSize * N := by omega
  have hctor : Shmem.ctor (mainSide m) m.kPageSize (m.kPageSize * N) World.boot =
      .ok [Effect.memfd_create m.memfd, Effect.ftruncate m.memfd (m.kPageSize * N) 0]
        ⟨m.kPageSize * N, m.memfd, []⟩ { World.boot with fileSize := m.kPageSize * N } := by
    simp [Shmem.ctor, bind_eq, pure_eq, call, CHECK_EQ, CHECK_GE, __LCHECK, mainSide,
      Kernel.memfd_create, Kernel.ftruncate, hm.memfd_ok, Step.after]
  have hg0 : Shmem.GetNewRegion (mainSide m) ⟨m.kPageSize * N, m.memfd, []⟩
      { World.boot with fileSize := m.kPageSize * N } =
      .ok [Effect.mmap (m.kPageSize * N) m.memfd m.region0]
        (m.region0, ⟨m.kPageSize * N, m.memfd, [m.region0]⟩)
        { World.boot with fileSize := m.kPageSize * N, maps := [(m.region0, m.kPageSize * N)] } := by
    have : m.region0 ≠ MAP_FAILED := by unfold MAP_FAILED; omega
    simp [Shmem.GetNewRegion, bind_eq, pure_eq, call, CHECK_NE, __LCHECK, mainSide,
      Kernel.mmap, World.boot, hpos, this, Step.after]
  have hg1 : Shmem.GetNewRegion (mainSide m) ⟨m.kPageSize * N, m.memfd, [m.region0]⟩
      { World.boot with fileSize := m.kPageSize * N, maps := [(m.region0, m.kPageSize * N)] } =
      .ok [Effect.mmap (m.kPageSize * N) m.memfd m.region1]
        (m.region1, ⟨m.kPageSize * N, m.memfd, [m.region0, m.region1]⟩)
        { World.boot with fileSize := m.kPageSize * N,
                          maps := [(m.region0, m.kPageSize * N), (m.region1, m.kPageSize * N)] } := by
    have : m.region1 ≠ MAP_FAILED := by unfold MAP_FAILED; omega
    simp [Shmem.GetNewRegion, bind_eq, pure_eq, call, CHECK_NE, __LCHECK, mainSide,
      Kernel.mmap, World.boot, hpos, this, Step.after]
  have hne : m.region0 ≠ m.region1 := by omega
  have ht0 : Touched m N 0
      { World.boot with fileSize := m.kPageSize * N,
                        maps := [(m.region0, m.kPageSize * N), (m.region1, m.kPageSize * N)] } :=
    ⟨rfl, rfl, rfl, rfl, rfl, fun j hj => absurd hj (Nat.not_lt_zero j),
      fun j hj => absurd hj (Nat.not_lt_zero j), fun _ _ _ => rfl, fun _ _ => rfl⟩
  obtain ⟨w4, htouch, ht4⟩ := touchPages_ok m N hm N 0 _ ht0 (by omega)
  rw [Nat.zero_add] at ht4
  rw [touchTrace_eq m N hm] at htouch
  have hreg : (mainSide m).uffdioRegister m.uffd m.region1 (m.kPageSize * N)
      m.hdr.UFFDIO_REGISTER_MODE_MINOR w4 =
      ((0, m.ioctls), { w4 with registered := some (m.region1, m.kPageSize * N) }) := by
    simp [mainSide, Kernel.uffdioRegister, hpos, hm.region1_aligned, ht4.maps]
  have hthr : (mainSide m).pthread_create ⟨m.uffd, m.region0, m.region1⟩
      { w4 with registered := some (m.region1, m.kPageSize * N) } =
      (0, { w4 with registered := some (m.region1, m.kPageSize * N)
                    resolver := some ⟨m.uffd, m.region0, m.region1⟩ }) := by
    have hu : m.uffd ≠ -1 := by have := hm.uffd_ok; omega
    simp [mainSide, Kernel.pthread_create, FaultHandlerThread, FaultHandlerLoop, bind_eq,
      pure_eq, CHECK_NE, __LCHECK, hu, nullptr, hm.region0_nonnull, hm.region1_nonnull, hne,
      Step.after]
  have hready := ready_of_touched m N w4 ht4
  have hcont : ¬ m.ioctls &&& (1 <<< m.hdr.UFFDIO_CONTINUE_NR) % 2 ^ 64 = 0 :=
    hm.continue_supported
  have hstart :
      runProgram m N =
        ((readPages (mainSide m) m.kPageSize m.region1 0 N >>= fun _ =>
          Shmem.dtor (mainSide m) ⟨m.kPageSize * N, m.memfd, [m.region0, m.region1]⟩ >>=
            fun _ => pure 0)
          { w4 with registered := some (m.region1, m.kPageSize * N)
                    resolver := some ⟨m.uffd, m.region0, m.region1⟩ }).after
          ([Effect.memfd_create m.memfd,
            Effect.ftruncate m.memfd (m.kPageSize * N) 0,
            Effect.mmap (m.kPageSize * N) m.memfd m.region0,
            Effect.mmap (m.kPageSize * N) m.memfd m.region1] ++
          (List.range' 0 N).map (fun j => Effect.store (m.region0 + j * m.kPageSize) 97) ++
          [Effect.userfaultfd
              (m.hdr.O_CLOEXEC ||| m.hdr.O_NONBLOCK ||| m.hdr.UFFD_USER_MODE_ONLY) m.uffd,
            Effect.uffdioApi m.uffd m.hdr.UFFD_API m.hdr.UFFD_FEATURE_MINOR_SHMEM 0
              m.hdr.UFFD_API m.features,
            Effect.uffdioRegister m.uffd m.region1 (m.kPageSize * N)
              m.hdr.UFFDIO_REGISTER_MODE_MINOR 0 m.ioctls,
            Effect.pthread_create ⟨m.uffd, m.region0, m.region1⟩ 0]) := by
    have hu : (mainSide m).userfaultfd
        (m.hdr.O_CLOEXEC ||| m.hdr.O_NONBLOCK ||| m.hdr.UFFD_USER_MODE_ONLY) w4 =
        (m.uffd, w4) := rfl
    have hapi : (mainSide m).uffdioApi m.uffd m.hdr.UFFD_API m.hdr.UFFD_FEATURE_MINOR_SHMEM w4 =
        ((0, m.hdr.UFFD_API, m.features), w4) := by
      simp [mainSide, Kernel.uffdioApi]
    have hfeat : ¬ m.features &&& m.hdr.UFFD_FEATURE_MINOR_SHMEM = 0 := hm.minor_supported
    have huok : m.uffd ≥ 0 := hm.uffd_ok
    simp only [runProgram, main, bind_eq, hsize, hctor, hg0, hg1, List.nil_append,
      List.singleton_append, CHECK_NE, __LCHECK, hne, ne_eq, not_false_eq_true, decide_True,
      if_true, htouch, call, CHECK_GE, CHECK_EQ, hu, huok, hapi, hfeat, hreg, hcont, hthr,
      Step.after_nil]
    simp only [show ¬ ((0 : Int) = -1) by decide, not_false_eq_true, decide_True, if_true,
      Step.after_nil]
    rw [hreg]
    simp only [show ¬ ((0 : Int) = -1) by decide, not_false_eq_true, decide_True, if_true,
      Step.after_nil, hcont]
    rw [hthr]
    simp only [decide_True, if_true, Step.after_nil, Step.after_after]
    rfl
  rw [hstart]
  constructor
  · intro h29
    obtain ⟨w9, hread, hr9⟩ := readPages_ok m N hm N 0 _ hready (by omega) (by omega)
    rw [Nat.zero_add] at hr9
    have hdtor : Shmem.dtor (mainSide m) ⟨m.kPageSize * N, m.memfd, [m.region0, m.region1]⟩ w9 =
        .ok [Effect.munmap m.region0 (m.kPageSize * N) 0,
          Effect.munmap m.region1 (m.kPageSize * N) 0, Effect.close m.memfd 0] ()
          { w9 with maps := [] } := by
      simp [Shmem.dtor, Shmem.unmapRegions, bind_eq, pure_eq, call, CHECK_EQ, __LCHECK,
        mainSide, Kernel.munmap, Kernel.close, hr9.maps, Step.after, hne.symm]
    refine ⟨{ w9 with maps := [] }, ?_, hr9.exitStatus⟩
    simp only [bind_eq, hread, hdtor, pure_eq]
    simp [Step.after, fullTrace]
  · intro h29
    obtain ⟨w9, hread, hr9⟩ := readPages_ok m N hm 29 0 _ hready (by omega) (by omega)
    rw [Nat.zero_add] at hr9
    obtain ⟨w10, hfail, hex⟩ := readPages_fail m N hm w9 hr9 h29 (N - 30)
    have hsplit := readPages_split (mainSide m) m.kPageSize m.region1 29 (N - 30 + 1) 0
      { w4 with registered := some (m.region1, m.kPageSize * N)
                resolver := some ⟨m.uffd, m.region0, m.region1⟩ }
    rw [show 29 + (N - 30 + 1) = N by omega, hread] at hsplit
    simp only [Nat.zero_add, hfail] at hsplit
    simp only [bind_eq, hsplit, Step.after]
    exact ⟨_, w10, rfl, hex⟩


/-! ## The end-to-end run (C1) and the limit of the self-check (C9) -/

theorem linuxMachine_sound (N : Nat) (h : N ≤ 256) : linuxMachine.Sound N := by
  refine ⟨by decide, by decide, by decide, by decide, by decide, by decide, by decide,
    by decide, by decide, by decide, ?_, ?_, ?_⟩
  · simp only [linuxMachine]; omega
  · simp only [linuxMachine]; omega
  · simp only [linuxMachine]; omega

theorem fullTrace_loads (m : Machine) (N : Nat) :
    (fullTrace m N).filter Effect.isLoad =
      (List.range' 0 N).map (fun j => Effect.load (m.region1 + j * m.kPageSize) (99 + j)) := by
  have h1 : ∀ l : List Nat, (l.map (fun j => Effect.store (m.region0 + j * m.kPageSize) 97)).filter
      Effect.isLoad = [] := by
    intro l
    induction l with
    | nil => rfl
    | cons a t ih => simp [List.filter, Effect.isLoad]
  have h2 : ∀ l : List Nat,
      (l.map (fun j => Effect.load (m.region1 + j * m.kPageSize) (99 + j))).filter
      Effect.isLoad = l.map (fun j => Effect.load (m.region1 + j * m.kPageSize) (99 + j)) := by
    intro l
    induction l with
    | nil => rfl
    | cons a t ih => simp [List.filter, Effect.isLoad]
  simp only [fullTrace, List.filter_append, h1, h2]
  simp [List.filter, Effect.isLoad]

/-- C1.  On a machine that behaves as the program needs, for a store of `N`
pages with `1 ≤ N ≤ 10`: the run of the whole program (the initiator, with the
resolver thread serving each fault as the page is touched) is the complete
sequence `fullTrace`: the store and its two mappings are set up, `'a'` is
stored into byte 0 of every page of `region0`, `region1` is registered and the
resolver started, and then the loads of byte 0 of pages `0 .. N-1` of `region1`
return `99 + i`, that is `'c' + i`, for page `i`, in this order; every check
passes, `main` returns `0` and the process ends with status `0`. -/
theorem program_reads_c_plus_index (m : Machine) (N : Nat) (hm : m.Sound N)
    (h1 : 1 ≤ N) (h10 : N ≤ 10) :
    (runProgram m N).value = some 0 ∧
    (runProgram m N).trace = fullTrace m N ∧
    (runProgram m N).trace.filter Effect.isLoad =
      (List.range' 0 N).map (fun i => Effect.load (m.region1 + i * m.kPageSize) (99 + i)) ∧
    processEnd (runProgram m N) = .status 0 := by
  obtain ⟨w, hrun, hex⟩ := (runProgram_result m N hm h1).1 (by omega)
  rw [hrun]
  refine ⟨rfl, rfl, fullTrace_loads m N, ?_⟩
  simp [processEnd, Step.state, hex]

theorem program_reads_c_plus_index_witness :
    (runProgram linuxMachine 10).value = some 0 ∧
    (runProgram linuxMachine 10).trace = fullTrace linuxMachine 10 ∧
    (runProgram linuxMachine 10).trace.filter Effect.isLoad =
      (List.range' 0 10).map
        (fun i => Effect.load (linuxMachine.region1 + i * linuxMachine.kPageSize) (99 + i)) ∧
    processEnd (runProgram linuxMachine 10) = .status 0 :=
  program_reads_c_plus_index linuxMachine 10 (linuxMachine_sound 10 (by decide)) (by decide)
    (by decide)

/-- C9.  The byte the resolver stores for page index `i` (offset
`i * kPageSize`) is `99 + i` reduced to 8 bits, and the check of `main`, which
compares that byte, sign-extended as a `char` and converted to 64 bits, with
`99 + i`, holds exactly when `i ≤ 28`; this for every page of a store of at most
`2 ^ 63` bytes.  So on a machine that behaves as the program needs, the
program with `N ≥ 1` pages ends with status `0` exactly when `N ≤ 29`; with
more pages it ends with status `1`. -/
theorem self_check_limit (m : Machine) (N : Nat) (hm : m.Sound N) (hN : 1 ≤ N) :
    (∀ kPageSize i, 0 < kPageSize → (i + 1) * kPageSize ≤ 2 ^ 63 →
      pageChar kPageSize (i * kPageSize) = (99 + i) % 256 ∧
      (charToU64 (pageChar kPageSize (i * kPageSize)) = (99 + i) % 2 ^ 64 ↔
        i ≤ 28)) ∧
    (processEnd (runProgram m N) = .status 0 ↔ N ≤ 29) ∧
    (29 < N → processEnd (runProgram m N) = .status 1) := by
  refine ⟨?_, ?_, ?_⟩
  · intro kPageSize i hps hfit
    have hi2 : i < 2 ^ 63 := by
      have h1 : (i + 1) * 1 ≤ (i + 1) * kPageSize := Nat.mul_le_mul_left _ hps
      omega
    rw [pageChar_eq, Nat.mul_div_cancel i hps]
    exact ⟨rfl, selfCheck_iff i hi2⟩
  · constructor
    · intro h
      by_contra hgt
      obtain ⟨tr, w, hrun, hex⟩ := (runProgram_result m N hm hN).2 (by omega)
      rw [hrun] at h
      simp [processEnd, Step.state, hex] at h
    · intro h
      obtain ⟨w, hrun, hex⟩ := (runProgram_result m N hm hN).1 h
      rw [hrun]
      simp [processEnd, Step.state, hex]
  · intro h
    obtain ⟨tr, w, hrun, hex⟩ := (runProgram_result m N hm hN).2 h
    rw [hrun]
    simp [processEnd, Step.state, hex]

theorem self_check_limit_witness :
    (processEnd (runProgram linuxMachine 30) = .status 0 ↔ 30 ≤ 29) ∧
    processEnd (runProgram linuxMachine 30) = .status 1 :=
  ⟨(self_check_limit linuxMachine 30 (linuxMachine_sound 30 (by decide)) (by decide)).2.1,
    (self_check_limit linuxMachine 30 (linuxMachine_sound 30 (by decide)) (by decide)).2.2
      (by decide)⟩


/-! ## Concrete runs -/

theorem misaligned_offset_aborts_witness :
    FaultHandlerIteration (resolverSide linuxMachine) linuxHeader 4096 4 linuxMachine.region0
        linuxMachine.region1
        (demoWorld linuxMachine [97, 97, 97] [] [⟨0x12, 4, 0x7f0000001005⟩]) =
      .halt [Effect.poll 4 1, Effect.read 4 32 32 ⟨0x12, 4, 0x7f0000001005⟩] (.exited 1)
        (demoWorld linuxMachine [97, 97, 97] [] []) :=
  (misaligned_offset_aborts (resolverSide linuxMachine) linuxHeader 4096 4
    linuxMachine.region0 linuxMachine.region1
    (demoWorld linuxMachine [97, 97, 97] [] [⟨0x12, 4, 0x7f0000001005⟩]) 1 rfl (by decide)
    (by decide) (by decide)).1 (by decide)

/-- C2 fails as stated: with the store of three pages mapped at adjacent
addresses (`region0` directly above `region1`) and all pages of `region1`
present, an event whose address is one page below `region1` has offset
`2 ^ 64 - 4096`, which is page-aligned and outside the store.  The resolver does
not stop at a check: it stores `'b'` to `region0 + offset`, which is the last
page of `region1` and so overwrites byte 0 of the third page of the store
(before: `'e'`), issues the completion directive for the faulting address, and
exits only because the kernel rejects that directive. -/
theorem stray_event_is_stored_and_continued :
    faultOffset adjacentMachine.region1 0x7efffffff000 % 4096 = 0 ∧
    ¬ faultOffset adjacentMachine.region1 0x7efffffff000 < 12288 ∧
    (FaultHandlerIteration (resolverSide adjacentMachine) linuxHeader 4096 4
        adjacentMachine.region0 adjacentMachine.region1
        (demoWorld adjacentMachine [99, 100, 101]
          [0x7f0000000000, 0x7f0000001000, 0x7f0000002000]
          [⟨0x12, 4, 0x7efffffff000⟩])).trace =
      [Effect.poll 4 1, Effect.read 4 32 32 ⟨0x12, 4, 0x7efffffff000⟩,
        Effect.store 0x7f0000002000 98, Effect.uffdioContinue 4 0x7efffffff000 4096 (-1)] ∧
    (FaultHandlerIteration (resolverSide adjacentMachine) linuxHeader 4096 4
        adjacentMachine.region0 adjacentMachine.region1
        (demoWorld adjacentMachine [99, 100, 101]
          [0x7f0000000000, 0x7f0000001000, 0x7f0000002000]
          [⟨0x12, 4, 0x7efffffff000⟩])).halted = some (.exited 1) ∧
    (demoWorld adjacentMachine [99, 100, 101]
      [0x7f0000000000, 0x7f0000001000, 0x7f0000002000]
      [⟨0x12, 4, 0x7efffffff000⟩]).peek (adjacentMachine.region0 + 8192) = some 101 ∧
    (FaultHandlerIteration (resolverSide adjacentMachine) linuxHeader 4096 4
        adjacentMachine.region0 adjacentMachine.region1
        (demoWorld adjacentMachine [99, 100, 101]
          [0x7f0000000000, 0x7f0000001000, 0x7f0000002000]
          [⟨0x12, 4, 0x7efffffff000⟩])).state.peek (adjacentMachine.region0 + 8192) =
      some 98 := by
  decide

theorem rejected_continue_exits_witness :
    (FaultHandlerThread (resolverSide linuxMachine) linuxHeader 4096
        ⟨4, linuxMachine.region0, linuxMachine.region1⟩ 3
        (demoWorld linuxMachine [97, 100, 97] [0x7f0000001000]
          [⟨0x12, 4, 0x7f0000001000⟩])).halted = some (.exited 1) ∧
    (FaultHandlerThread (resolverSide linuxMachine) linuxHeader 4096
        ⟨4, linuxMachine.region0, linuxMachine.region1⟩ 3
        (demoWorld linuxMachine [97, 100, 97] [0x7f0000001000]
          [⟨0x12, 4, 0x7f0000001000⟩])).trace.getLast? =
      some (Effect.uffdioContinue 4 0x7f0000001000 4096 (-1)) :=
  rejected_continue_exits (resolverSide linuxMachine) linuxHeader 4096
    ⟨4, linuxMachine.region0, linuxMachine.region1⟩ 3
    (demoWorld linuxMachine [97, 100, 97] [0x7f0000001000] [⟨0x12, 4, 0x7f0000001000⟩])
    4 0x7f0000001000 4096 (by decide)

theorem bad_read_aborts_before_processing_witness :
    FaultHandlerIteration (resolverSide linuxMachine) linuxHeader 4096 4 linuxMachine.region0
        linuxMachine.region1 (demoWorld linuxMachine [97, 97, 97] [] [⟨0x13, 0, 0⟩]) =
      .halt [Effect.poll 4 1, Effect.read 4 32 32 ⟨0x13, 0, 0⟩] (.exited 1)
        (demoWorld linuxMachine [97, 97, 97] [] []) :=
  (bad_read_aborts_before_processing (resolverSide linuxMachine) linuxHeader 4096 4
    linuxMachine.region0 linuxMachine.region1
    (demoWorld linuxMachine [97, 97, 97] [] [⟨0x13, 0, 0⟩]) 1 (by decide) rfl (by decide)
    (by decide) (by decide)).1 (Or.inr (by decide))

theorem handled_event_one_continue_witness :
    ∃ n ret msg c,
      (FaultHandlerIteration (resolverSide linuxMachine) linuxHeader 4096 4
          linuxMachine.region0 linuxMachine.region1
          (demoWorld linuxMachine [97, 97, 97] [] [⟨0x12, 4, 0x7f0000001000⟩])).trace =
        [Effect.poll 4 n, Effect.read 4 linuxHeader.sizeof_uffd_msg ret msg,
          Effect.store (ptrAdd linuxMachine.region0 (faultOffset linuxMachine.region1 msg.address))
            (pageChar 4096 (faultOffset linuxMachine.region1 msg.address)),
          Effect.uffdioContinue 4 msg.address 4096 c] ∧
      (FaultHandlerIteration (resolverSide linuxMachine) linuxHeader 4096 4
          linuxMachine.region0 linuxMachine.region1
          (demoWorld linuxMachine [97, 97, 97] [] [⟨0x12, 4, 0x7f0000001000⟩])).trace.filter
          Effect.isContinue = [Effect.uffdioContinue 4 msg.address 4096 c] ∧
      c ≠ -1 ∧
      (4096 ∣ 2 ^ 64 → linuxMachine.region1 % 4096 = 0 → msg.address % 4096 = 0) :=
  handled_event_one_continue (resolverSide linuxMachine) linuxHeader 4096 4
    linuxMachine.region0 linuxMachine.region1
    (demoWorld linuxMachine [97, 97, 97] [] [⟨0x12, 4, 0x7f0000001000⟩]) (by decide)

theorem resolver_changes_one_byte_witness :
    (FaultHandlerIteration (resolverSide linuxMachine) linuxMachine.hdr linuxMachine.kPageSize
        4 linuxMachine.region0 linuxMachine.region1
        (demoWorld linuxMachine [97, 97, 97] [] [⟨0x12, 4, 0x7f0000001000⟩])).state.file 4096 =
      100 ∧
    (FaultHandlerIteration (resolverSide linuxMachine) linuxMachine.hdr linuxMachine.kPageSize
        4 linuxMachine.region0 linuxMachine.region1
        (demoWorld linuxMachine [97, 97, 97] [] [⟨0x12, 4, 0x7f0000001000⟩])).state.file 0 =
      97 := by
  have h := (resolver_changes_one_byte linuxMachine
    (demoWorld linuxMachine [97, 97, 97] [] [⟨0x12, 4, 0x7f0000001000⟩])
    ⟨4, linuxMachine.region0, linuxMachine.region1⟩ ⟨0x12, 4, 0x7f0000001000⟩ [] 12288
    rfl (by decide) rfl (by decide) rfl (by decide) (by decide)
    (by
      intro a h1 h2
      simp only [World.inRegistered, demoWorld, linuxMachine] at h1 h2 ⊢
      simp only [decide_eq_false_iff_not]
      omega)
    (by decide) (by decide)).1
  exact ⟨h 4096, h 0⟩

end UffdMinor
